import Mathlib

set_option linter.unusedVariables false

/-! Shallow embedding of the cast HTTP client's request execution pipeline
(`Do` and `genReply` in cast.go).  The engine is modelled as a
trace-producing interpreter: external collaborators (hook chains, the HTTP
transport, the circuit breaker, the request body source) are oracles
supplied through an `Env`, and every observable step of one `Do` call is
recorded as an `Event` in execution order. -/

/-- Error values flowing through the pipeline.  The engine only propagates
them; the payload keeps distinct concrete errors distinguishable. -/
inductive Err where
  | transportErr (n : Nat)
  | circuitOpen (n : Nat)
  | bodyRead (n : Nat)
  | bodyClose (n : Nat)
  | hookFail (n : Nat)
  | reqBodyFail (n : Nat)
  | buildFail (n : Nat)
deriving DecidableEq, Repr

/-- Identity of a Go context value: either the caller-supplied context of a
`Do` call or the `context.TODO()` value that cast.go line 184 passes to
`cb.Execute`. -/
inductive GoContext where
  | caller (id : Nat)
  | todo
deriving DecidableEq, Repr

deriving instance DecidableEq for Except

/-- Outcome data of a raw `*http.Response`: its status code, what
`ioutil.ReadAll(rawResponse.Body)` returns, and what
`rawResponse.Body.Close()` returns (`none` means closed without error). -/
structure RawResp where
  statusCode : Nat
  readResult : Except Err (List Nat)
  closeResult : Option Err
deriving DecidableEq, Repr

/-- Request data used by the pipeline.  Cast.go reads `method`, `path` and
`circuitName`; the remaining Request fields (headers, auth, profiling) do
not influence the claims and the Request type itself lives outside src. -/
structure Request where
  method : String
  path : String
  circuitName : String
deriving DecidableEq, Repr

/-- Mirror of the Response built at cast.go lines 203-219: a back-reference
to the originating request, the optional raw response, the buffered body
and the status code.  `body := []` and `statusCode := 0` are the Go zero
values, left untouched when no raw response exists. -/
structure Response where
  request : Request
  rawResponse : Option RawResp
  body : List Nat
  statusCode : Nat
deriving DecidableEq, Repr

/-- Modelled from the spec: a retry hook is an external function judging
the pair `(Response, transport error)`; `true` votes retry.  The Response
pointer may be nil in Go, hence `Option Response`. -/
def RetryHook : Type := Option Response → Option Err → Bool

/-- Modelled from the spec: a backoff strategy maps the 1-based count of
attempts performed so far to a delay (a `Nat` duration here). -/
def BackoffStrategy : Type := Nat → Nat

/-- Circuit manager: `GetCircuit` tells whether a breaker instance is
registered under a name (cep21's `Manager.GetCircuit` returns nil for an
unknown name).  The registered breaker's runtime behaviour is an oracle in
`Env`. -/
structure Manager where
  GetCircuit : String → Bool

/-- The Cast client configuration visible to the execution engine.  The
before-request, request and response hook chains are external functions
invoked at most once per `Do` call, so each is modelled by its outcome at
its unique invocation point (`none` = success, `some e` = the hook returns
error `e`). -/
structure Cast where
  baseURL : String
  retry : Nat
  stg : Option BackoffStrategy
  beforeRequestHooks : List (Option Err)
  requestHooks : List (Option Err)
  responseHooks : List (Option Err)
  retryHooks : List RetryHook
  h : Manager
  defaultCircuitName : String

/-- Oracle for one loop iteration's external behaviour: what the transport
(`c.client.Do`) returns if called, whether a resolved breaker's `Execute`
runs the guarded closure (`runExecuted = false` means the breaker
short-circuits: the closure never runs and `Execute` returns
`shortCircuitErr`), and what `cb.IsOpen()` reports after this attempt. -/
structure AttemptOutcome where
  transport : Except Err RawResp
  runExecuted : Bool
  shortCircuitErr : Err
  isOpen : Bool

/-- Oracles for one `Do` call: the initial `request.ReqBody()` result, the
per-retry `ReqBody()` results (indexed by the attempt count that re-reads
the body), the `http.NewRequestWithContext` outcome, and the per-iteration
transport and breaker behaviour. -/
structure Env where
  reqBodyInit : Except Err (List Nat)
  reqBodyRetry : Nat → Except Err (List Nat)
  buildRequest : Option Err
  attempt : Nat → AttemptOutcome

/-- Observable events of one `Do` call, recorded in execution order.
`count` is the zero-based attempt index of the loop iteration the event
belongs to; the `sleep` event records the backoff delay taken at the end
of iteration `count` (cast.go computes it from the already incremented
counter, i.e. from `count + 1`). -/
inductive Event where
  | beforeHook (i : Nat)
  | newRawRequest (ctx : GoContext)
  | requestHook (i : Nat)
  | attemptStart (count : Nat)
  | reqBodyRetry (count : Nat)
  | breakerExec (count : Nat) (ctx : GoContext)
  | transportCall (count : Nat)
  | isOpenCheck (count : Nat) (result : Bool)
  | retryHook (count : Nat) (i : Nat) (resp : Option Response) (e : Option Err) (vote : Bool)
  | sleep (count : Nat) (d : Nat)
  | responseHook (i : Nat)
deriving DecidableEq, Repr

/-- Attempt index an event belongs to; `none` for the pre-loop and
post-loop events of `Do`. -/
def evIdx : Event → Option Nat
  | Event.beforeHook _ => none
  | Event.newRawRequest _ => none
  | Event.requestHook _ => none
  | Event.responseHook _ => none
  | Event.attemptStart n => some n
  | Event.reqBodyRetry n => some n
  | Event.breakerExec n _ => some n
  | Event.transportCall n => some n
  | Event.isOpenCheck n _ => some n
  | Event.retryHook n _ _ _ _ => some n
  | Event.sleep n _ => some n

/-- Result of one loop iteration: an early `return nil, err`
(`abort`), a `break` out of the loop (`halt`), or a `continue` into the
next iteration (`again`).  `halt` and `again` carry the iteration's final
`err` and `resp` values. -/
inductive IterOut where
  | abort (e : Err)
  | halt (eo : Option Err) (r : Response)
  | again (eo : Option Err) (r : Response)
deriving DecidableEq, Repr

/-- Retry-hook poll of cast.go lines 226-232: hooks are applied in order
to the pair `(resp, err)`, and the first hook returning true stops the
scan (`break`).  Returns the events of the evaluated hooks and the
resulting `isRetry` flag; `n` is the attempt index, `i` the index of the
first hook in `hooks` within the full registered chain. -/
def runRetryHooksAux (r : Option Response) (e : Option Err) (n : Nat) : List RetryHook → Nat → List Event × Bool
  | [], _ => ([], false)
  | hk :: t, i =>
    if hk r e then
      ([Event.retryHook n i r e true], true)
    else
      let rest := runRetryHooksAux r e n t (i + 1)
      (Event.retryHook n i r e false :: rest.1, rest.2)

/-- Backoff duration: `c.stg.backoff(count)` when a strategy is set.  The
engine only calls this under a `c.stg != nil` guard. -/
def backoffOf : Option BackoffStrategy → Nat → Nat
  | some f, n => f n
  | none, _ => 0

/-- Lines 222-239 of cast.go, after the Response has been built: the
`fallback && cb.IsOpen()` hard stop (note `cb.IsOpen()` is evaluated only
when `fallback` is true), the retry-hook poll, and the retry decision
`isRetry && count <= c.retry && c.stg != nil` where `count` has already
been incremented past the attempt just finished (so it appears as
`count + 1` here), followed by `<-time.After(c.stg.backoff(count))`. -/
def afterResponse (c : Cast) (env : Env) (count : Nat) (fallback : Bool) (errA : Option Err) (resp : Response) : List Event × IterOut :=
  let out := env.attempt count
  let openEvts : List Event := if fallback then [Event.isOpenCheck count out.isOpen] else []
  if fallback && out.isOpen then
    (openEvts, IterOut.halt errA resp)
  else
    let hr := runRetryHooksAux (some resp) errA count c.retryHooks 0
    if hr.2 && decide (count + 1 ≤ c.retry) && c.stg.isSome then
      (openEvts ++ hr.1 ++ [Event.sleep count (backoffOf c.stg (count + 1))], IterOut.again errA resp)
    else
      (openEvts ++ hr.1, IterOut.halt errA resp)

/-- Circuit-name resolution of cast.go lines 169-173: the request-level
name when non-empty, otherwise the client's default circuit name. -/
def resolveName (c : Cast) (req : Request) : String :=
  if req.circuitName.length > 0 then req.circuitName else c.defaultCircuitName

/-- Lines 182-239 of cast.go for one iteration, from the transport call
onwards.  When a breaker is resolved the call goes through `cb.Execute`
(with `context.TODO()` as in line 184): if the breaker runs the guarded
closure, the transport result is propagated and `fallback` is set exactly
when the transport errored; if it short-circuits, no transport call occurs
and its own error is returned with `fallback` still false.  Without a
breaker the transport is called directly.  A raw response's body is then
read and closed, either failure aborting the whole call; finally the
post-response logic of `afterResponse` runs. -/
def iterationCore (c : Cast) (req : Request) (env : Env) (count : Nat) (cbSome : Bool) : List Event × IterOut :=
  let out := env.attempt count
  let tstep : List Event × Bool × Option RawResp × Option Err :=
    if cbSome then
      if out.runExecuted then
        match out.transport with
        | Except.ok r => ([Event.breakerExec count GoContext.todo, Event.transportCall count], false, some r, none)
        | Except.error e => ([Event.breakerExec count GoContext.todo, Event.transportCall count], true, none, some e)
      else
        ([Event.breakerExec count GoContext.todo], false, none, some out.shortCircuitErr)
    else
      match out.transport with
      | Except.ok r => ([Event.transportCall count], false, some r, none)
      | Except.error e => ([Event.transportCall count], false, none, some e)
  match tstep with
  | (tevts, fallback, some r, _errA) =>
    match r.readResult with
    | Except.error e => (tevts, IterOut.abort e)
    | Except.ok b =>
      match r.closeResult with
      | some e => (tevts, IterOut.abort e)
      | none =>
        let resp : Response := { request := req, rawResponse := some r, body := b, statusCode := r.statusCode }
        let ar := afterResponse c env count fallback none resp
        (tevts ++ ar.1, ar.2)
  | (tevts, fallback, none, errA) =>
    let resp : Response := { request := req, rawResponse := none, body := [], statusCode := 0 }
    let ar := afterResponse c env count fallback errA resp
    (tevts ++ ar.1, ar.2)

/-- One full iteration of the retry loop (cast.go lines 161-240 minus the
top-of-loop budget guard): circuit resolution, the `count >= 1` body
re-materialization via `ReqBody()` (whose failure returns immediately),
then `iterationCore`. -/
def iteration (c : Cast) (req : Request) (env : Env) (count : Nat) : List Event × IterOut :=
  let cbSome := c.h.GetCircuit (resolveName c req)
  if 1 ≤ count then
    match env.reqBodyRetry count with
    | Except.error e => ([Event.attemptStart count, Event.reqBodyRetry count], IterOut.abort e)
    | Except.ok _ =>
      let co := iterationCore c req env count cbSome
      (Event.attemptStart count :: Event.reqBodyRetry count :: co.1, co.2)
  else
    let co := iterationCore c req env count cbSome
    (Event.attemptStart count :: co.1, co.2)

/-- The retry loop of `genReply` (cast.go lines 161-240).  `remaining`
counts the loop iterations still permitted before the top-of-loop
`count > c.retry` break fires: the canonical entry is
`remaining = c.retry + 1, count = 0`, every step preserves
`remaining + count = c.retry + 1`, and so `remaining = 0` holds exactly
when the Go guard `count > c.retry` does.  `eo` and `ro` are the
function-scoped `err` and `resp` values carried to the guard exit. -/
def genReplyLoop (c : Cast) (req : Request) (env : Env) : Nat → Nat → Option Err → Option Response → List Event × Except Err (Option Err × Option Response)
  | 0, _count, eo, ro => ([], Except.ok (eo, ro))
  | remaining + 1, count, eo, ro =>
    match iteration c req env count with
    | (tr, IterOut.abort e) => (tr, Except.error e)
    | (tr, IterOut.halt e1 r) => (tr, Except.ok (e1, some r))
    | (tr, IterOut.again e1 r) =>
      let rest := genReplyLoop c req env remaining (count + 1) e1 (some r)
      (tr ++ rest.1, rest.2)

/-- `genReply` (cast.go lines 154-248): run the retry loop from
`count = 0`, then return the carried error if non-nil, otherwise the last
Response. -/
def Cast.genReply (c : Cast) (req : Request) (env : Env) : List Event × Except Err (Option Response) :=
  match genReplyLoop c req env (c.retry + 1) 0 none none with
  | (tr, Except.error e) => (tr, Except.error e)
  | (tr, Except.ok (some e, _)) => (tr, Except.error e)
  | (tr, Except.ok (none, r)) => (tr, Except.ok r)

/-- Hook-chain runner of cast.go lines 119-124 / 132-137 / 144-149: hooks
run in registration order and the first returning an error stops the
chain with that error.  `mk` tags the emitted events, `i` is the index of
the first hook of the remaining chain. -/
def runHookChainAux (mk : Nat → Event) : Nat → List (Option Err) → List Event × Option Err
  | _, [] => ([], none)
  | i, none :: t =>
    let rest := runHookChainAux mk (i + 1) t
    (mk i :: rest.1, rest.2)
  | i, some e :: _ => ([mk i], some e)

/-- `Do` (cast.go lines 112-152): materialize the body via `ReqBody()`,
run the before-request hooks, build the raw request bound to the caller's
context, run the request hooks, run the retry loop via `genReply`, and
finally run the response hooks; each step's error aborts the call with
exactly that error. -/
def Cast.Do (c : Cast) (ctx : GoContext) (req : Request) (env : Env) : List Event × Except Err (Option Response) :=
  match env.reqBodyInit with
  | Except.error e => ([], Except.error e)
  | Except.ok _ =>
    match runHookChainAux Event.beforeHook 0 c.beforeRequestHooks with
    | (tr1, some e) => (tr1, Except.error e)
    | (tr1, none) =>
      match env.buildRequest with
      | some e => (tr1, Except.error e)
      | none =>
        match runHookChainAux Event.requestHook 0 c.requestHooks with
        | (tr2, some e) => (tr1 ++ Event.newRawRequest ctx :: tr2, Except.error e)
        | (tr2, none) =>
          match Cast.genReply c req env with
          | (tr3, Except.error e) => (tr1 ++ Event.newRawRequest ctx :: tr2 ++ tr3, Except.error e)
          | (tr3, Except.ok rep) =>
            match runHookChainAux Event.responseHook 0 c.responseHooks with
            | (tr4, some e) => (tr1 ++ Event.newRawRequest ctx :: tr2 ++ tr3 ++ tr4, Except.error e)
            | (tr4, none) => (tr1 ++ Event.newRawRequest ctx :: tr2 ++ tr3 ++ tr4, Except.ok rep)

/-- `BaseURL` accessor (cast.go lines 250-252). -/
def Cast.BaseURL (c : Cast) : String := c.baseURL

/-- Recognizer for transport-call events. -/
def isTC : Event → Bool
  | Event.transportCall _ => true
  | _ => false

/-- Recognizer for attempt-start events. -/
def isAS : Event → Bool
  | Event.attemptStart _ => true
  | _ => false

/-- Number of transport calls recorded in a trace. -/
def countTC (tr : List Event) : Nat := (tr.filter isTC).length

/-- Number of loop iterations (attempt starts) recorded in a trace. -/
def countAS (tr : List Event) : Nat := (tr.filter isAS).length

/-- Position and value of the first erroring hook of a modelled hook
chain, if any. -/
def firstErr : List (Option Err) → Option (Nat × Err)
  | [] => none
  | none :: t => (firstErr t).map (fun p => (p.1 + 1, p.2))
  | some e :: _ => some (0, e)

/-! ### Lemmas about the retry-hook poll -/

lemma runRetryHooksAux_mem (r : Option Response) (e : Option Err) (n : Nat) :
    ∀ (hooks : List RetryHook) (i : Nat) (ev : Event),
      ev ∈ (runRetryHooksAux r e n hooks i).1 →
      ∃ j v, ev = Event.retryHook n j r e v ∧ i ≤ j ∧
        ∃ hk, hooks.get? (j - i) = some hk ∧ v = hk r e := by
  intro hooks
  induction hooks with
  | nil => intro i ev h; simp [runRetryHooksAux] at h
  | cons hk t ih =>
    intro i ev h
    by_cases hv : hk r e = true
    · simp [runRetryHooksAux, hv] at h
      subst h
      exact ⟨i, true, rfl, le_refl i, hk, by simp, hv.symm⟩
    · simp only [runRetryHooksAux, if_neg hv] at h
      rcases List.mem_cons.mp h with h1 | h2
      · subst h1
        refine ⟨i, false, rfl, le_refl i, hk, by simp, ?_⟩
        simp at hv
        exact hv.symm
      · rcases ih (i + 1) ev h2 with ⟨j, v, hev, hij, hk2, hget, hvv⟩
        refine ⟨j, v, hev, by omega, hk2, ?_, hvv⟩
        have hji : j - i = (j - (i + 1)) + 1 := by omega
        rw [hji]
        simpa using hget

lemma runRetryHooksAux_earlier (r : Option Response) (e : Option Err) (n : Nat) :
    ∀ (hooks : List RetryHook) (i j : Nat) (v : Bool),
      Event.retryHook n j r e v ∈ (runRetryHooksAux r e n hooks i).1 →
      ∀ j', i ≤ j' → j' < j → Event.retryHook n j' r e false ∈ (runRetryHooksAux r e n hooks i).1 := by
  intro hooks
  induction hooks with
  | nil => intro i j v h; simp [runRetryHooksAux] at h
  | cons hk t ih =>
    intro i j v h j' hij' hj'
    by_cases hv : hk r e = true
    · simp [runRetryHooksAux, hv] at h
      omega
    · simp only [runRetryHooksAux, if_neg hv] at h
      rcases List.mem_cons.mp h with h1 | h2
      · simp only [Event.retryHook.injEq] at h1
        omega
      · simp only [runRetryHooksAux, if_neg hv]
        rcases Nat.lt_or_ge j' (i + 1) with hcase | hcase
        · have : j' = i := by omega
          subst this
          exact List.mem_cons_self _ _
        · exact List.mem_cons_of_mem _ (ih (i + 1) j v h2 j' hcase hj')

lemma runRetryHooksAux_shortCircuit (r : Option Response) (e : Option Err) (n : Nat) :
    ∀ (hooks : List RetryHook) (i j : Nat),
      Event.retryHook n j r e true ∈ (runRetryHooksAux r e n hooks i).1 →
      ∀ (j2 : Nat) (r2 : Option Response) (e2 : Option Err) (v2 : Bool), j < j2 →
        Event.retryHook n j2 r2 e2 v2 ∉ (runRetryHooksAux r e n hooks i).1 := by
  intro hooks
  induction hooks with
  | nil => intro i j h; simp [runRetryHooksAux] at h
  | cons hk t ih =>
    intro i j h j2 r2 e2 v2 hlt hmem
    by_cases hv : hk r e = true
    · simp [runRetryHooksAux, hv] at h hmem
      omega
    · simp only [runRetryHooksAux, if_neg hv] at h hmem
      rcases List.mem_cons.mp h with h1 | h2
      · simp only [Event.retryHook.injEq] at h1
        simp at h1
      · rcases List.mem_cons.mp hmem with hm1 | hm2
        · rcases runRetryHooksAux_mem r e n t (i + 1) _ h2 with ⟨j3, v3, hev, hij, _⟩
          simp only [Event.retryHook.injEq] at hev hm1
          omega
        · exact ih (i + 1) j h2 j2 r2 e2 v2 hlt hm2

lemma runRetryHooksAux_isRetry (r : Option Response) (e : Option Err) (n : Nat) :
    ∀ (hooks : List RetryHook) (i : Nat),
      (runRetryHooksAux r e n hooks i).2 = true ↔
        ∃ j, Event.retryHook n j r e true ∈ (runRetryHooksAux r e n hooks i).1 := by
  intro hooks
  induction hooks with
  | nil => intro i; simp [runRetryHooksAux]
  | cons hk t ih =>
    intro i
    by_cases hv : hk r e = true
    · simp [runRetryHooksAux, hv]
    · simp only [runRetryHooksAux, if_neg hv]
      constructor
      · intro hb
        rcases (ih (i + 1)).mp hb with ⟨j, hj⟩
        exact ⟨j, List.mem_cons_of_mem _ hj⟩
      · rintro ⟨j, hj⟩
        rcases List.mem_cons.mp hj with h1 | h2
        · simp only [Event.retryHook.injEq] at h1
          simp at h1
        · exact (ih (i + 1)).mpr ⟨j, h2⟩

/-! ### Lemmas about the before-request / request / response hook chains -/

lemma runHookChainAux_mem (mk : Nat → Event) :
    ∀ (l : List (Option Err)) (i : Nat) (ev : Event),
      ev ∈ (runHookChainAux mk i l).1 → ∃ j, ev = mk j := by
  intro l
  induction l with
  | nil => intro i ev h; simp [runHookChainAux] at h
  | cons o t ih =>
    intro i ev h
    cases o with
    | none =>
      simp only [runHookChainAux] at h
      rcases List.mem_cons.mp h with h1 | h2
      · exact ⟨i, h1⟩
      · exact ih (i + 1) ev h2
    | some e =>
      simp only [runHookChainAux] at h
      rcases List.mem_cons.mp h with h1 | h2
      · exact ⟨i, h1⟩
      · simp at h2

lemma runHookChainAux_firstErr_some (mk : Nat → Event) :
    ∀ (l : List (Option Err)) (i k : Nat) (e : Err),
      firstErr l = some (k, e) →
      runHookChainAux mk i l = ((List.range' i (k + 1)).map mk, some e) := by
  intro l
  induction l with
  | nil => intro i k e h; simp [firstErr] at h
  | cons o t ih =>
    intro i k e h
    cases o with
    | none =>
      simp only [firstErr, Option.map_eq_some'] at h
      rcases h with ⟨⟨k', e'⟩, hfe, hpair⟩
      have hk : k = k' + 1 := by
        have := congrArg Prod.fst hpair
        simpa using this.symm
      have he : e = e' := by
        have := congrArg Prod.snd hpair
        simpa using this.symm
      subst hk
      subst he
      have hrec := ih (i + 1) k' e hfe
      simp only [runHookChainAux, hrec]
      have hr : List.range' i (k' + 1 + 1) = i :: List.range' (i + 1) (k' + 1) :=
        List.range'_succ i (k' + 1) 1
      rw [hr]
      simp
    | some e' =>
      simp only [firstErr] at h
      simp at h
      rcases h with ⟨hk, he⟩
      subst hk; subst he
      simp [runHookChainAux, List.range'_one]

lemma runHookChainAux_firstErr_none (mk : Nat → Event) :
    ∀ (l : List (Option Err)) (i : Nat),
      firstErr l = none →
      runHookChainAux mk i l = ((List.range' i l.length).map mk, none) := by
  intro l
  induction l with
  | nil => intro i h; simp [runHookChainAux]
  | cons o t ih =>
    intro i h
    cases o with
    | none =>
      simp only [firstErr, Option.map_eq_none'] at h
      have hrec := ih (i + 1) h
      simp only [runHookChainAux, hrec]
      simp [List.length_cons, List.range'_succ]
    | some e' => simp [firstErr] at h

/-! ### Membership inversions for one loop iteration -/

lemma afterResponse_mem (c : Cast) (env : Env) (m : Nat) (fallback : Bool) (errA : Option Err) (resp : Response) (ev : Event) :
    ev ∈ (afterResponse c env m fallback errA resp).1 →
    (∃ b, ev = Event.isOpenCheck m b) ∨
    (∃ j v, ev = Event.retryHook m j (some resp) errA v) ∨
    (∃ d, ev = Event.sleep m d) := by
  intro h
  have hopen : ∀ ev2, ev2 ∈ (if fallback then [Event.isOpenCheck m (env.attempt m).isOpen] else []) → ∃ b, ev2 = Event.isOpenCheck m b := by
    intro ev2 h2
    by_cases hfb : fallback = true
    · simp [hfb] at h2
      exact ⟨_, h2⟩
    · simp at hfb
      simp [hfb] at h2
  by_cases hf : (fallback && (env.attempt m).isOpen) = true
  · simp only [afterResponse, hf, if_true] at h
    exact Or.inl (hopen ev h)
  · simp only [afterResponse, hf, if_false, Bool.false_eq_true] at h
    by_cases hd : ((runRetryHooksAux (some resp) errA m c.retryHooks 0).2 && decide (m + 1 ≤ c.retry) && c.stg.isSome) = true
    · simp only [hd, if_true] at h
      rcases List.mem_append.mp h with h1 | h2
      · rcases List.mem_append.mp h1 with h3 | h4
        · exact Or.inl (hopen ev h3)
        · rcases runRetryHooksAux_mem _ _ _ _ _ _ h4 with ⟨j, v, hev, _, _⟩
          exact Or.inr (Or.inl ⟨j, v, hev⟩)
      · simp at h2
        exact Or.inr (Or.inr ⟨_, h2⟩)
    · simp only [hd, if_false, Bool.false_eq_true] at h
      rcases List.mem_append.mp h with h1 | h2
      · exact Or.inl (hopen ev h1)
      · rcases runRetryHooksAux_mem _ _ _ _ _ _ h2 with ⟨j, v, hev, _, _⟩
        exact Or.inr (Or.inl ⟨j, v, hev⟩)

lemma retryHook_not_open (m : Nat) (fallback : Bool) (b2 : Bool) (n j : Nat) (r' : Option Response) (e' : Option Err) (v : Bool) :
    Event.retryHook n j r' e' v ∈ (if fallback then [Event.isOpenCheck m b2] else []) → False := by
  intro h
  by_cases hfb : fallback = true
  · simp [hfb] at h
  · simp at hfb
    simp [hfb] at h

lemma afterResponse_retryHooks (c : Cast) (env : Env) (m : Nat) (fallback : Bool) (errA : Option Err) (resp : Response) :
    ∀ (n j : Nat) (r' : Option Response) (e' : Option Err) (v : Bool),
      Event.retryHook n j r' e' v ∈ (afterResponse c env m fallback errA resp).1 →
      n = m ∧ r' = some resp ∧ e' = errA ∧
      (∃ hk, c.retryHooks.get? j = some hk ∧ v = hk (some resp) errA) ∧
      (∀ j', j' < j → Event.retryHook m j' (some resp) errA false ∈ (afterResponse c env m fallback errA resp).1) ∧
      (v = true → ∀ (j2 : Nat) (r2 : Option Response) (e2 : Option Err) (v2 : Bool), j < j2 →
        Event.retryHook m j2 r2 e2 v2 ∉ (afterResponse c env m fallback errA resp).1) := by
  intro n j r' e' v h
  by_cases hf : (fallback && (env.attempt m).isOpen) = true
  · simp only [afterResponse, hf, if_true] at h
    exact absurd h (by intro hc; exact retryHook_not_open m fallback _ n j r' e' v hc)
  · by_cases hd : ((runRetryHooksAux (some resp) errA m c.retryHooks 0).2 && decide (m + 1 ≤ c.retry) && c.stg.isSome) = true
    · simp only [afterResponse, hf, if_false, Bool.false_eq_true, hd, if_true] at h ⊢
      rcases List.mem_append.mp h with h1 | h2
      · rcases List.mem_append.mp h1 with h3 | h4
        · exact absurd h3 (by intro hc; exact retryHook_not_open m fallback _ n j r' e' v hc)
        · rcases runRetryHooksAux_mem _ _ _ _ _ _ h4 with ⟨j3, v3, hev, _, hk3, hget, hvv⟩
          simp only [Event.retryHook.injEq] at hev
          rcases hev with ⟨hn, hj, hr, he, hv⟩
          subst hn; subst hj; subst hr; subst he; subst hv
          simp only [Nat.sub_zero] at hget
          refine ⟨rfl, rfl, rfl, ⟨hk3, hget, hvv⟩, ?_, ?_⟩
          · intro j' hj'
            exact List.mem_append.mpr (Or.inl (List.mem_append.mpr (Or.inr
              (runRetryHooksAux_earlier _ _ _ _ _ _ _ h4 j' (Nat.zero_le j') hj'))))
          · intro hvt j2 r2 e2 v2 hlt hmem
            rcases List.mem_append.mp hmem with hm1 | hm2
            · rcases List.mem_append.mp hm1 with hm3 | hm4
              · exact retryHook_not_open _ fallback _ _ j2 r2 e2 v2 hm3
              · subst hvt
                exact runRetryHooksAux_shortCircuit _ _ _ _ _ _ h4 j2 r2 e2 v2 hlt hm4
            · simp at hm2
      · simp at h2
    · simp only [afterResponse, hf, if_false, Bool.false_eq_true, hd, if_true] at h ⊢
      rcases List.mem_append.mp h with h1 | h2
      · exact absurd h1 (by intro hc; exact retryHook_not_open m fallback _ n j r' e' v hc)
      · rcases runRetryHooksAux_mem _ _ _ _ _ _ h2 with ⟨j3, v3, hev, _, hk3, hget, hvv⟩
        simp only [Event.retryHook.injEq] at hev
        rcases hev with ⟨hn, hj, hr, he, hv⟩
        subst hn; subst hj; subst hr; subst he; subst hv
        simp only [Nat.sub_zero] at hget
        refine ⟨rfl, rfl, rfl, ⟨hk3, hget, hvv⟩, ?_, ?_⟩
        · intro j' hj'
          exact List.mem_append.mpr (Or.inr
            (runRetryHooksAux_earlier _ _ _ _ _ _ _ h2 j' (Nat.zero_le j') hj'))
        · intro hvt j2 r2 e2 v2 hlt hmem
          rcases List.mem_append.mp hmem with hm1 | hm2
          · exact retryHook_not_open _ fallback _ _ j2 r2 e2 v2 hm1
          · subst hvt
            exact runRetryHooksAux_shortCircuit _ _ _ _ _ _ h2 j2 r2 e2 v2 hlt hm2

/-! ### Branch equations for `iterationCore` and `iteration` -/

lemma iterationCore_eq1 (c : Cast) (req : Request) (env : Env) (m : Nat) (r : RawResp) (e : Err)
    (htr : (env.attempt m).transport = Except.ok r) (hrun : (env.attempt m).runExecuted = true)
    (hre : r.readResult = Except.error e) :
    iterationCore c req env m true = ([Event.breakerExec m GoContext.todo, Event.transportCall m], IterOut.abort e) := by
  simp [iterationCore, htr, hrun, hre]

lemma iterationCore_eq2 (c : Cast) (req : Request) (env : Env) (m : Nat) (r : RawResp) (b : List Nat) (e : Err)
    (htr : (env.attempt m).transport = Except.ok r) (hrun : (env.attempt m).runExecuted = true)
    (hre : r.readResult = Except.ok b) (hcl : r.closeResult = some e) :
    iterationCore c req env m true = ([Event.breakerExec m GoContext.todo, Event.transportCall m], IterOut.abort e) := by
  simp [iterationCore, htr, hrun, hre, hcl]

lemma iterationCore_eq3 (c : Cast) (req : Request) (env : Env) (m : Nat) (r : RawResp) (b : List Nat)
    (htr : (env.attempt m).transport = Except.ok r) (hrun : (env.attempt m).runExecuted = true)
    (hre : r.readResult = Except.ok b) (hcl : r.closeResult = none) :
    iterationCore c req env m true =
      ([Event.breakerExec m GoContext.todo, Event.transportCall m] ++
        (afterResponse c env m false none { request := req, rawResponse := some r, body := b, statusCode := r.statusCode }).1,
       (afterResponse c env m false none { request := req, rawResponse := some r, body := b, statusCode := r.statusCode }).2) := by
  simp [iterationCore, htr, hrun, hre, hcl]

lemma iterationCore_eq4 (c : Cast) (req : Request) (env : Env) (m : Nat) (e : Err)
    (htr : (env.attempt m).transport = Except.error e) (hrun : (env.attempt m).runExecuted = true) :
    iterationCore c req env m true =
      ([Event.breakerExec m GoContext.todo, Event.transportCall m] ++
        (afterResponse c env m true (some e) { request := req, rawResponse := none, body := [], statusCode := 0 }).1,
       (afterResponse c env m true (some e) { request := req, rawResponse := none, body := [], statusCode := 0 }).2) := by
  simp [iterationCore, htr, hrun]

lemma iterationCore_eq5 (c : Cast) (req : Request) (env : Env) (m : Nat)
    (hrun : (env.attempt m).runExecuted = false) :
    iterationCore c req env m true =
      ([Event.breakerExec m GoContext.todo] ++
        (afterResponse c env m false (some (env.attempt m).shortCircuitErr) { request := req, rawResponse := none, body := [], statusCode := 0 }).1,
       (afterResponse c env m false (some (env.attempt m).shortCircuitErr) { request := req, rawResponse := none, body := [], statusCode := 0 }).2) := by
  simp [iterationCore, hrun]

lemma iterationCore_eq6 (c : Cast) (req : Request) (env : Env) (m : Nat) (r : RawResp) (e : Err)
    (htr : (env.attempt m).transport = Except.ok r) (hre : r.readResult = Except.error e) :
    iterationCore c req env m false = ([Event.transportCall m], IterOut.abort e) := by
  simp [iterationCore, htr, hre]

lemma iterationCore_eq7 (c : Cast) (req : Request) (env : Env) (m : Nat) (r : RawResp) (b : List Nat) (e : Err)
    (htr : (env.attempt m).transport = Except.ok r) (hre : r.readResult = Except.ok b) (hcl : r.closeResult = some e) :
    iterationCore c req env m false = ([Event.transportCall m], IterOut.abort e) := by
  simp [iterationCore, htr, hre, hcl]

lemma iterationCore_eq8 (c : Cast) (req : Request) (env : Env) (m : Nat) (r : RawResp) (b : List Nat)
    (htr : (env.attempt m).transport = Except.ok r) (hre : r.readResult = Except.ok b) (hcl : r.closeResult = none) :
    iterationCore c req env m false =
      ([Event.transportCall m] ++
        (afterResponse c env m false none { request := req, rawResponse := some r, body := b, statusCode := r.statusCode }).1,
       (afterResponse c env m false none { request := req, rawResponse := some r, body := b, statusCode := r.statusCode }).2) := by
  simp [iterationCore, htr, hre, hcl]

lemma iterationCore_eq9 (c : Cast) (req : Request) (env : Env) (m : Nat) (e : Err)
    (htr : (env.attempt m).transport = Except.error e) :
    iterationCore c req env m false =
      ([Event.transportCall m] ++
        (afterResponse c env m false (some e) { request := req, rawResponse := none, body := [], statusCode := 0 }).1,
       (afterResponse c env m false (some e) { request := req, rawResponse := none, body := [], statusCode := 0 }).2) := by
  simp [iterationCore, htr]

lemma iteration_eq1 (c : Cast) (req : Request) (env : Env) (m : Nat) (e : Err)
    (hm : 1 ≤ m) (hb : env.reqBodyRetry m = Except.error e) :
    iteration c req env m = ([Event.attemptStart m, Event.reqBodyRetry m], IterOut.abort e) := by
  simp [iteration, hm, hb]

lemma iteration_eq2 (c : Cast) (req : Request) (env : Env) (m : Nat) (b : List Nat)
    (hm : 1 ≤ m) (hb : env.reqBodyRetry m = Except.ok b) :
    iteration c req env m =
      (Event.attemptStart m :: Event.reqBodyRetry m :: (iterationCore c req env m (c.h.GetCircuit (resolveName c req))).1,
       (iterationCore c req env m (c.h.GetCircuit (resolveName c req))).2) := by
  simp [iteration, hm, hb]

lemma iteration_eq3 (c : Cast) (req : Request) (env : Env)
    (hm : ¬ 1 ≤ (0 : Nat)) :
    iteration c req env 0 =
      (Event.attemptStart 0 :: (iterationCore c req env 0 (c.h.GetCircuit (resolveName c req))).1,
       (iterationCore c req env 0 (c.h.GetCircuit (resolveName c req))).2) := by
  simp [iteration]

lemma iterationCore_mem (c : Cast) (req : Request) (env : Env) (m : Nat) (cbSome : Bool) (ev : Event) :
    ev ∈ (iterationCore c req env m cbSome).1 →
    (ev = Event.breakerExec m GoContext.todo ∧ cbSome = true) ∨
    (ev = Event.transportCall m ∧ (cbSome = true → (env.attempt m).runExecuted = true)) ∨
    (∃ fallback errA resp, resp.request = req ∧
      (resp.rawResponse = none → resp.body = [] ∧ resp.statusCode = 0) ∧
      ev ∈ (afterResponse c env m fallback errA resp).1) := by
  intro hmem
  cases cbSome with
  | false =>
    rcases htr : (env.attempt m).transport with e0 | r0
    · rw [iterationCore_eq9 c req env m e0 htr] at hmem
      rcases List.mem_append.mp hmem with h1 | h2
      · simp at h1
        exact Or.inr (Or.inl ⟨h1, by intro hc; cases hc⟩)
      · exact Or.inr (Or.inr ⟨false, some e0, _, rfl, by intro _; exact ⟨rfl, rfl⟩, h2⟩)
    · rcases hre : r0.readResult with e1 | b1
      · rw [iterationCore_eq6 c req env m r0 e1 htr hre] at hmem
        simp at hmem
        exact Or.inr (Or.inl ⟨hmem, by intro hc; cases hc⟩)
      · rcases hcl : r0.closeResult with _ | e2
        · rw [iterationCore_eq8 c req env m r0 b1 htr hre hcl] at hmem
          rcases List.mem_append.mp hmem with h1 | h2
          · simp at h1
            exact Or.inr (Or.inl ⟨h1, by intro hc; cases hc⟩)
          · exact Or.inr (Or.inr ⟨false, none, _, rfl, by intro hc; simp at hc, h2⟩)
        · rw [iterationCore_eq7 c req env m r0 b1 e2 htr hre hcl] at hmem
          simp at hmem
          exact Or.inr (Or.inl ⟨hmem, by intro hc; cases hc⟩)
  | true =>
    rcases hrun : (env.attempt m).runExecuted with _ | _
    · rw [iterationCore_eq5 c req env m hrun] at hmem
      rcases List.mem_append.mp hmem with h1 | h2
      · simp at h1
        exact Or.inl ⟨h1, rfl⟩
      · exact Or.inr (Or.inr ⟨false, some (env.attempt m).shortCircuitErr, _, rfl, by intro _; exact ⟨rfl, rfl⟩, h2⟩)
    · rcases htr : (env.attempt m).transport with e0 | r0
      · rw [iterationCore_eq4 c req env m e0 htr hrun] at hmem
        rcases List.mem_append.mp hmem with h1 | h2
        · rcases List.mem_cons.mp h1 with h3 | h4
          · exact Or.inl ⟨h3, rfl⟩
          · simp at h4
            exact Or.inr (Or.inl ⟨h4, fun _ => rfl⟩)
        · exact Or.inr (Or.inr ⟨true, some e0, _, rfl, by intro _; exact ⟨rfl, rfl⟩, h2⟩)
      · rcases hre : r0.readResult with e1 | b1
        · rw [iterationCore_eq1 c req env m r0 e1 htr hrun hre] at hmem
          rcases List.mem_cons.mp hmem with h3 | h4
          · exact Or.inl ⟨h3, rfl⟩
          · simp at h4
            exact Or.inr (Or.inl ⟨h4, fun _ => rfl⟩)
        · rcases hcl : r0.closeResult with _ | e2
          · rw [iterationCore_eq3 c req env m r0 b1 htr hrun hre hcl] at hmem
            rcases List.mem_append.mp hmem with h1 | h2
            · rcases List.mem_cons.mp h1 with h3 | h4
              · exact Or.inl ⟨h3, rfl⟩
              · simp at h4
                exact Or.inr (Or.inl ⟨h4, fun _ => rfl⟩)
            · exact Or.inr (Or.inr ⟨false, none, _, rfl, by intro hc; simp at hc, h2⟩)
          · rw [iterationCore_eq2 c req env m r0 b1 e2 htr hrun hre hcl] at hmem
            rcases List.mem_cons.mp hmem with h3 | h4
            · exact Or.inl ⟨h3, rfl⟩
            · simp at h4
              exact Or.inr (Or.inl ⟨h4, fun _ => rfl⟩)

lemma iteration_mem (c : Cast) (req : Request) (env : Env) (m : Nat) (ev : Event) :
    ev ∈ (iteration c req env m).1 →
    ev = Event.attemptStart m ∨ ev = Event.reqBodyRetry m ∨
    ev ∈ (iterationCore c req env m (c.h.GetCircuit (resolveName c req))).1 := by
  intro hmem
  by_cases hm : 1 ≤ m
  · rcases hb : env.reqBodyRetry m with e0 | b0
    · rw [iteration_eq1 c req env m e0 hm hb] at hmem
      simp at hmem
      rcases hmem with h1 | h2
      · exact Or.inl h1
      · exact Or.inr (Or.inl h2)
    · rw [iteration_eq2 c req env m b0 hm hb] at hmem
      rcases List.mem_cons.mp hmem with h1 | h2
      · exact Or.inl h1
      · rcases List.mem_cons.mp h2 with h3 | h4
        · exact Or.inr (Or.inl h3)
        · exact Or.inr (Or.inr h4)
  · have hm0 : m = 0 := by omega
    subst hm0
    rw [iteration_eq3 c req env hm] at hmem
    rcases List.mem_cons.mp hmem with h1 | h2
    · exact Or.inl h1
    · exact Or.inr (Or.inr h2)

lemma evIdx_afterResponse (c : Cast) (env : Env) (m : Nat) (fallback : Bool) (errA : Option Err) (resp : Response) (ev : Event) :
    ev ∈ (afterResponse c env m fallback errA resp).1 → evIdx ev = some m := by
  intro h
  rcases afterResponse_mem c env m fallback errA resp ev h with ⟨b, hb⟩ | ⟨j, v, hj⟩ | ⟨d, hd⟩
  · subst hb; rfl
  · subst hj; rfl
  · subst hd; rfl

lemma evIdx_iteration (c : Cast) (req : Request) (env : Env) (m : Nat) (ev : Event) :
    ev ∈ (iteration c req env m).1 → evIdx ev = some m := by
  intro h
  rcases iteration_mem c req env m ev h with h1 | h2 | h3
  · subst h1; rfl
  · subst h2; rfl
  · rcases iterationCore_mem c req env m _ ev h3 with ⟨hb, _⟩ | ⟨ht, _⟩ | ⟨f, eA, resp, _, _, har⟩
    · subst hb; rfl
    · subst ht; rfl
    · exact evIdx_afterResponse c env m f eA resp ev har

/-! ### Lemmas about the retry loop -/

lemma iteration_head (c : Cast) (req : Request) (env : Env) (m : Nat) :
    ∃ t, (iteration c req env m).1 = Event.attemptStart m :: t := by
  by_cases hm : 1 ≤ m
  · rcases hb : env.reqBodyRetry m with e0 | b0
    · rw [iteration_eq1 c req env m e0 hm hb]
      exact ⟨_, rfl⟩
    · rw [iteration_eq2 c req env m b0 hm hb]
      exact ⟨_, rfl⟩
  · have hm0 : m = 0 := by omega
    subst hm0
    rw [iteration_eq3 c req env hm]
    exact ⟨_, rfl⟩

lemma mem_genReplyLoop (c : Cast) (req : Request) (env : Env) :
    ∀ (rem count : Nat) (eo : Option Err) (ro : Option Response) (ev : Event),
      ev ∈ (genReplyLoop c req env rem count eo ro).1 →
      ∃ m, count ≤ m ∧ ev ∈ (iteration c req env m).1 ∧
        ∀ ev2, ev2 ∈ (iteration c req env m).1 → ev2 ∈ (genReplyLoop c req env rem count eo ro).1 := by
  intro rem
  induction rem with
  | zero => intro count eo ro ev h; simp [genReplyLoop] at h
  | succ rem ih =>
    intro count eo ro ev h
    rcases hit : iteration c req env count with ⟨tr, o⟩
    cases o with
    | abort e =>
      simp only [genReplyLoop, hit] at h ⊢
      exact ⟨count, le_refl count, by rw [hit]; exact h, by intro ev2 h2; rw [hit] at h2; exact h2⟩
    | halt e1 r =>
      simp only [genReplyLoop, hit] at h ⊢
      exact ⟨count, le_refl count, by rw [hit]; exact h, by intro ev2 h2; rw [hit] at h2; exact h2⟩
    | again e1 r =>
      simp only [genReplyLoop, hit] at h ⊢
      rcases List.mem_append.mp h with h1 | h2
      · exact ⟨count, le_refl count, by rw [hit]; exact h1,
          by intro ev2 h2; rw [hit] at h2; exact List.mem_append.mpr (Or.inl h2)⟩
      · rcases ih (count + 1) e1 (some r) ev h2 with ⟨m, hle, hmem, hsub⟩
        exact ⟨m, by omega, hmem, by intro ev2 h3; exact List.mem_append.mpr (Or.inr (hsub ev2 h3))⟩

lemma attemptStart_chain (c : Cast) (req : Request) (env : Env) :
    ∀ (rem count : Nat) (eo : Option Err) (ro : Option Response) (m : Nat),
      Event.attemptStart m ∈ (genReplyLoop c req env rem count eo ro).1 →
      ∀ j, count ≤ j → j < m →
        (∃ tj ej rj, iteration c req env j = (tj, IterOut.again ej rj)) ∧
        (∀ ev2, ev2 ∈ (iteration c req env j).1 → ev2 ∈ (genReplyLoop c req env rem count eo ro).1) := by
  intro rem
  induction rem with
  | zero => intro count eo ro m h; simp [genReplyLoop] at h
  | succ rem ih =>
    intro count eo ro m h j hcj hjm
    rcases hit : iteration c req env count with ⟨tr, o⟩
    cases o with
    | abort e =>
      simp only [genReplyLoop, hit] at h
      have : m = count := by
        have := evIdx_iteration c req env count (Event.attemptStart m) (by rw [hit]; exact h)
        simpa [evIdx] using this
      omega
    | halt e1 r =>
      simp only [genReplyLoop, hit] at h
      have : m = count := by
        have := evIdx_iteration c req env count (Event.attemptStart m) (by rw [hit]; exact h)
        simpa [evIdx] using this
      omega
    | again e1 r =>
      simp only [genReplyLoop, hit] at h ⊢
      rcases Nat.lt_or_ge j (count + 1) with hj1 | hj2
      · have hj0 : j = count := by omega
        subst hj0
        refine ⟨⟨tr, e1, r, hit⟩, ?_⟩
        intro ev2 h2
        rw [hit] at h2
        exact List.mem_append.mpr (Or.inl h2)
      · rcases List.mem_append.mp h with h1 | h2
        · have : m = count := by
            have := evIdx_iteration c req env count (Event.attemptStart m) (by rw [hit]; exact h1)
            simpa [evIdx] using this
          omega
        · rcases ih (count + 1) e1 (some r) m h2 j hj2 hjm with ⟨hag, hsub⟩
          refine ⟨hag, ?_⟩
          intro ev2 h3
          exact List.mem_append.mpr (Or.inr (hsub ev2 h3))

lemma loop_abort_result (c : Cast) (req : Request) (env : Env) :
    ∀ (rem count : Nat) (eo : Option Err) (ro : Option Response) (ev : Event) (n : Nat) (e : Err),
      evIdx ev = some n → ev ∈ (genReplyLoop c req env rem count eo ro).1 →
      (iteration c req env n).2 = IterOut.abort e →
      (genReplyLoop c req env rem count eo ro).2 = Except.error e := by
  intro rem
  induction rem with
  | zero => intro count eo ro ev n e _ h; simp [genReplyLoop] at h
  | succ rem ih =>
    intro count eo ro ev n e hidx h habort
    rcases hit : iteration c req env count with ⟨tr, o⟩
    cases o with
    | abort e2 =>
      simp only [genReplyLoop, hit] at h ⊢
      have hnc : n = count := by
        have := evIdx_iteration c req env count ev (by rw [hit]; exact h)
        rw [hidx] at this
        simpa using this
      subst hnc
      rw [hit] at habort
      simp at habort
      subst habort
      rfl
    | halt e1 r =>
      simp only [genReplyLoop, hit] at h
      have hnc : n = count := by
        have := evIdx_iteration c req env count ev (by rw [hit]; exact h)
        rw [hidx] at this
        simpa using this
      subst hnc
      rw [hit] at habort
      simp at habort
    | again e1 r =>
      simp only [genReplyLoop, hit] at h ⊢
      rcases List.mem_append.mp h with h1 | h2
      · have hnc : n = count := by
          have := evIdx_iteration c req env count ev (by rw [hit]; exact h1)
          rw [hidx] at this
          simpa using this
        subst hnc
        rw [hit] at habort
        simp at habort
      · exact ih (count + 1) e1 (some r) ev n e hidx h2 habort

/-! ### Counting transport calls and attempt starts -/

lemma countTC_append (a b : List Event) : countTC (a ++ b) = countTC a + countTC b := by
  simp [countTC, List.filter_append]

lemma countAS_append (a b : List Event) : countAS (a ++ b) = countAS a + countAS b := by
  simp [countAS, List.filter_append]

lemma countTC_zero_of (tr : List Event) (hall : ∀ ev, ev ∈ tr → isTC ev = false) : countTC tr = 0 := by
  have : tr.filter isTC = [] := List.filter_eq_nil_iff.mpr (by intro a ha; simp [hall a ha])
  simp [countTC, this]

lemma countAS_zero_of (tr : List Event) (hall : ∀ ev, ev ∈ tr → isAS ev = false) : countAS tr = 0 := by
  have : tr.filter isAS = [] := List.filter_eq_nil_iff.mpr (by intro a ha; simp [hall a ha])
  simp [countAS, this]

lemma countTC_afterResponse (c : Cast) (env : Env) (m : Nat) (fallback : Bool) (errA : Option Err) (resp : Response) :
    countTC (afterResponse c env m fallback errA resp).1 = 0 := by
  apply countTC_zero_of
  intro ev hmem
  rcases afterResponse_mem c env m fallback errA resp ev hmem with ⟨b, hb⟩ | ⟨j, v, hj⟩ | ⟨d, hd⟩
  · subst hb; rfl
  · subst hj; rfl
  · subst hd; rfl

lemma countAS_afterResponse (c : Cast) (env : Env) (m : Nat) (fallback : Bool) (errA : Option Err) (resp : Response) :
    countAS (afterResponse c env m fallback errA resp).1 = 0 := by
  apply countAS_zero_of
  intro ev hmem
  rcases afterResponse_mem c env m fallback errA resp ev hmem with ⟨b, hb⟩ | ⟨j, v, hj⟩ | ⟨d, hd⟩
  · subst hb; rfl
  · subst hj; rfl
  · subst hd; rfl

lemma countTC_cons (a : Event) (l : List Event) :
    countTC (a :: l) = (if isTC a = true then 1 else 0) + countTC l := by
  by_cases h : isTC a = true
  · simp [countTC, List.filter_cons, h, Nat.add_comm]
  · simp [countTC, List.filter_cons, h]

lemma countAS_cons (a : Event) (l : List Event) :
    countAS (a :: l) = (if isAS a = true then 1 else 0) + countAS l := by
  by_cases h : isAS a = true
  · simp [countAS, List.filter_cons, h, Nat.add_comm]
  · simp [countAS, List.filter_cons, h]

lemma countTC_iterationCore (c : Cast) (req : Request) (env : Env) (m : Nat) (cbSome : Bool) :
    countTC (iterationCore c req env m cbSome).1 ≤ 1 ∧ countAS (iterationCore c req env m cbSome).1 = 0 := by
  cases cbSome with
  | false =>
    rcases htr : (env.attempt m).transport with e0 | r0
    · rw [iterationCore_eq9 c req env m e0 htr, countTC_append, countAS_append,
        countTC_afterResponse, countAS_afterResponse]
      simp [countTC_cons, countAS_cons, countTC, countAS, isTC, isAS]
    · rcases hre : r0.readResult with e1 | b1
      · rw [iterationCore_eq6 c req env m r0 e1 htr hre]
        simp [countTC_cons, countAS_cons, countTC, countAS, isTC, isAS]
      · rcases hcl : r0.closeResult with _ | e2
        · rw [iterationCore_eq8 c req env m r0 b1 htr hre hcl, countTC_append, countAS_append,
            countTC_afterResponse, countAS_afterResponse]
          simp [countTC_cons, countAS_cons, countTC, countAS, isTC, isAS]
        · rw [iterationCore_eq7 c req env m r0 b1 e2 htr hre hcl]
          simp [countTC_cons, countAS_cons, countTC, countAS, isTC, isAS]
  | true =>
    rcases hrun : (env.attempt m).runExecuted with _ | _
    · rw [iterationCore_eq5 c req env m hrun, countTC_append, countAS_append,
        countTC_afterResponse, countAS_afterResponse]
      simp [countTC_cons, countAS_cons, countTC, countAS, isTC, isAS]
    · rcases htr : (env.attempt m).transport with e0 | r0
      · rw [iterationCore_eq4 c req env m e0 htr hrun, countTC_append, countAS_append,
          countTC_afterResponse, countAS_afterResponse]
        simp [countTC_cons, countAS_cons, countTC, countAS, isTC, isAS]
      · rcases hre : r0.readResult with e1 | b1
        · rw [iterationCore_eq1 c req env m r0 e1 htr hrun hre]
          simp [countTC_cons, countAS_cons, countTC, countAS, isTC, isAS]
        · rcases hcl : r0.closeResult with _ | e2
          · rw [iterationCore_eq3 c req env m r0 b1 htr hrun hre hcl, countTC_append, countAS_append,
              countTC_afterResponse, countAS_afterResponse]
            simp [countTC_cons, countAS_cons, countTC, countAS, isTC, isAS]
          · rw [iterationCore_eq2 c req env m r0 b1 e2 htr hrun hre hcl]
            simp [countTC_cons, countAS_cons, countTC, countAS, isTC, isAS]

lemma countTC_iteration (c : Cast) (req : Request) (env : Env) (m : Nat) :
    countTC (iteration c req env m).1 ≤ 1 ∧ countAS (iteration c req env m).1 = 1 := by
  have hc := countTC_iterationCore c req env m (c.h.GetCircuit (resolveName c req))
  by_cases hm : 1 ≤ m
  · rcases hb : env.reqBodyRetry m with e0 | b0
    · rw [iteration_eq1 c req env m e0 hm hb]
      simp [countTC_cons, countAS_cons, countTC, countAS, isTC, isAS]
    · rw [iteration_eq2 c req env m b0 hm hb]
      rw [countTC_cons, countTC_cons, countAS_cons, countAS_cons]
      simp [isTC, isAS]
      omega
  · have hm0 : m = 0 := by omega
    subst hm0
    rw [iteration_eq3 c req env hm]
    rw [countTC_cons, countAS_cons]
    simp [isTC, isAS]
    omega

lemma genReplyLoop_counts (c : Cast) (req : Request) (env : Env) :
    ∀ (rem count : Nat) (eo : Option Err) (ro : Option Response),
      countTC (genReplyLoop c req env rem count eo ro).1 ≤ rem ∧
      countAS (genReplyLoop c req env rem count eo ro).1 ≤ rem ∧
      countTC (genReplyLoop c req env rem count eo ro).1 ≤ countAS (genReplyLoop c req env rem count eo ro).1 := by
  intro rem
  induction rem with
  | zero => intro count eo ro; simp [genReplyLoop, countTC, countAS]
  | succ rem ih =>
    intro count eo ro
    rcases hit : iteration c req env count with ⟨tr, o⟩
    have hiter := countTC_iteration c req env count
    rw [hit] at hiter
    simp at hiter
    cases o with
    | abort e =>
      simp only [genReplyLoop, hit]
      omega
    | halt e1 r =>
      simp only [genReplyLoop, hit]
      omega
    | again e1 r =>
      simp only [genReplyLoop, hit]
      have hrec := ih (count + 1) e1 (some r)
      simp only [Prod.fst, countTC_append, countAS_append]
      omega

/-! ### Inversion lemmas for the retry decision and the backoff sleep -/

lemma mem_openEvts (m : Nat) (fallback b2 : Bool) (ev : Event) :
    ev ∈ (if fallback then [Event.isOpenCheck m b2] else []) → ev = Event.isOpenCheck m b2 := by
  intro h
  by_cases hfb : fallback = true
  · simp [hfb] at h
    exact h
  · simp at hfb
    simp [hfb] at h

lemma afterResponse_open_halt (c : Cast) (env : Env) (m : Nat) (errA : Option Err) (resp : Response)
    (hio : (env.attempt m).isOpen = true) :
    afterResponse c env m true errA resp = ([Event.isOpenCheck m true], IterOut.halt errA resp) := by
  simp [afterResponse, hio]

lemma afterResponse_again_inv (c : Cast) (env : Env) (m : Nat) (fallback : Bool) (errA : Option Err) (resp : Response)
    (tr : List Event) (eo : Option Err) (r : Response) :
    afterResponse c env m fallback errA resp = (tr, IterOut.again eo r) →
    ∃ stgf, c.stg = some stgf ∧ m + 1 ≤ c.retry ∧
      (∃ j, Event.retryHook m j (some resp) errA true ∈ tr) ∧
      ∃ pre1, tr = pre1 ++ [Event.sleep m (stgf (m + 1))] ∧
        (∀ d2, Event.sleep m d2 ∉ pre1) ∧ countAS pre1 = 0 := by
  intro heq
  by_cases hf : (fallback && (env.attempt m).isOpen) = true
  · simp only [afterResponse, hf, if_true] at heq
    simp at heq
  · by_cases hd : ((runRetryHooksAux (some resp) errA m c.retryHooks 0).2 && decide (m + 1 ≤ c.retry) && c.stg.isSome) = true
    · simp only [afterResponse, hf, if_false, Bool.false_eq_true, hd, if_true] at heq
      simp only [Bool.and_eq_true, decide_eq_true_eq] at hd
      rcases hd with ⟨⟨hretry, hle⟩, hsome⟩
      rcases Option.isSome_iff_exists.mp hsome with ⟨stgf, hstg⟩
      have htr : tr = (if fallback then [Event.isOpenCheck m (env.attempt m).isOpen] else []) ++
          (runRetryHooksAux (some resp) errA m c.retryHooks 0).1 ++ [Event.sleep m (backoffOf c.stg (m + 1))] := by
        have := congrArg Prod.fst heq
        simpa using this.symm
      refine ⟨stgf, hstg, hle, ?_, ?_⟩
      · rcases (runRetryHooksAux_isRetry (some resp) errA m c.retryHooks 0).mp hretry with ⟨j, hj⟩
        refine ⟨j, ?_⟩
        rw [htr]
        exact List.mem_append.mpr (Or.inl (List.mem_append.mpr (Or.inr hj)))
      · refine ⟨(if fallback then [Event.isOpenCheck m (env.attempt m).isOpen] else []) ++
          (runRetryHooksAux (some resp) errA m c.retryHooks 0).1, ?_, ?_, ?_⟩
        · rw [htr, hstg]
          simp [backoffOf, List.append_assoc]
        · intro d2 hmem
          rcases List.mem_append.mp hmem with h1 | h2
          · have := mem_openEvts m fallback _ _ h1
            cases this
          · rcases runRetryHooksAux_mem _ _ _ _ _ _ h2 with ⟨j, v, hev, _, _⟩
            cases hev
        · rw [countAS_append]
          have h1 : countAS (if fallback then [Event.isOpenCheck m (env.attempt m).isOpen] else []) = 0 := by
            apply countAS_zero_of
            intro ev hmem
            have := mem_openEvts m fallback _ _ hmem
            subst this
            rfl
          have h2 : countAS (runRetryHooksAux (some resp) errA m c.retryHooks 0).1 = 0 := by
            apply countAS_zero_of
            intro ev hmem
            rcases runRetryHooksAux_mem _ _ _ _ _ _ hmem with ⟨j, v, hev, _, _⟩
            subst hev
            rfl
          omega
    · simp only [afterResponse, hf, if_false, Bool.false_eq_true, hd, if_true] at heq
      simp at heq

lemma iterationCore_again_inv (c : Cast) (req : Request) (env : Env) (m : Nat) (cbSome : Bool)
    (tr : List Event) (eo : Option Err) (r : Response) :
    iterationCore c req env m cbSome = (tr, IterOut.again eo r) →
    ∃ stgf, c.stg = some stgf ∧ m + 1 ≤ c.retry ∧
      (∃ j r' e', Event.retryHook m j r' e' true ∈ tr) ∧
      ∃ pre1, tr = pre1 ++ [Event.sleep m (stgf (m + 1))] ∧
        (∀ d2, Event.sleep m d2 ∉ pre1) ∧ countAS pre1 = 0 := by
  intro heq
  have lift : ∀ (tevts : List Event) (fallback : Bool) (errA : Option Err) (resp : Response),
      (∀ ev, ev ∈ tevts → (∃ c2, ev = Event.breakerExec m c2) ∨ ev = Event.transportCall m) →
      (tevts ++ (afterResponse c env m fallback errA resp).1,
        (afterResponse c env m fallback errA resp).2) = (tr, IterOut.again eo r) →
      ∃ stgf, c.stg = some stgf ∧ m + 1 ≤ c.retry ∧
        (∃ j r' e', Event.retryHook m j r' e' true ∈ tr) ∧
        ∃ pre1, tr = pre1 ++ [Event.sleep m (stgf (m + 1))] ∧
          (∀ d2, Event.sleep m d2 ∉ pre1) ∧ countAS pre1 = 0 := by
    intro tevts fallback errA resp htevts hpair
    have h1 : tevts ++ (afterResponse c env m fallback errA resp).1 = tr := by
      have := congrArg Prod.fst hpair
      simpa using this
    have h2 : (afterResponse c env m fallback errA resp).2 = IterOut.again eo r := by
      have := congrArg Prod.snd hpair
      simpa using this
    have har : afterResponse c env m fallback errA resp =
        ((afterResponse c env m fallback errA resp).1, IterOut.again eo r) := by
      rw [← h2]
    rcases afterResponse_again_inv c env m fallback errA resp _ eo r har with
      ⟨stgf, hstg, hle, ⟨j, hj⟩, pre1, hpre, hnosleep, hAS⟩
    refine ⟨stgf, hstg, hle, ⟨j, (some resp), errA, ?_⟩, tevts ++ pre1, ?_, ?_, ?_⟩
    · rw [← h1]
      exact List.mem_append.mpr (Or.inr hj)
    · rw [← h1, hpre, List.append_assoc]
    · intro d2 hmem
      rcases List.mem_append.mp hmem with hm1 | hm2
      · rcases htevts _ hm1 with ⟨c2, hc2⟩ | hc2 <;> cases hc2
      · exact hnosleep d2 hm2
    · rw [countAS_append, hAS]
      have : countAS tevts = 0 := by
        apply countAS_zero_of
        intro ev hmem
        rcases htevts _ hmem with ⟨c2, hc2⟩ | hc2 <;> (subst hc2; rfl)
      omega
  cases cbSome with
  | false =>
    rcases htr : (env.attempt m).transport with e0 | r0
    · rw [iterationCore_eq9 c req env m e0 htr] at heq
      exact lift _ _ _ _ (by intro ev hmem; simp at hmem; subst hmem; exact Or.inr rfl) heq
    · rcases hre : r0.readResult with e1 | b1
      · rw [iterationCore_eq6 c req env m r0 e1 htr hre] at heq
        simp at heq
      · rcases hcl : r0.closeResult with _ | e2
        · rw [iterationCore_eq8 c req env m r0 b1 htr hre hcl] at heq
          exact lift _ _ _ _ (by intro ev hmem; simp at hmem; subst hmem; exact Or.inr rfl) heq
        · rw [iterationCore_eq7 c req env m r0 b1 e2 htr hre hcl] at heq
          simp at heq
  | true =>
    rcases hrun : (env.attempt m).runExecuted with _ | _
    · rw [iterationCore_eq5 c req env m hrun] at heq
      exact lift _ _ _ _ (by intro ev hmem; simp at hmem; subst hmem; exact Or.inl ⟨_, rfl⟩) heq
    · rcases htr : (env.attempt m).transport with e0 | r0
      · rw [iterationCore_eq4 c req env m e0 htr hrun] at heq
        refine lift _ _ _ _ ?_ heq
        intro ev hmem
        rcases List.mem_cons.mp hmem with h1 | h2
        · exact Or.inl ⟨_, h1⟩
        · simp at h2
          exact Or.inr h2
      · rcases hre : r0.readResult with e1 | b1
        · rw [iterationCore_eq1 c req env m r0 e1 htr hrun hre] at heq
          simp at heq
        · rcases hcl : r0.closeResult with _ | e2
          · rw [iterationCore_eq3 c req env m r0 b1 htr hrun hre hcl] at heq
            refine lift _ _ _ _ ?_ heq
            intro ev hmem
            rcases List.mem_cons.mp hmem with h1 | h2
            · exact Or.inl ⟨_, h1⟩
            · simp at h2
              exact Or.inr h2
          · rw [iterationCore_eq2 c req env m r0 b1 e2 htr hrun hre hcl] at heq
            simp at heq

lemma iteration_again_inv (c : Cast) (req : Request) (env : Env) (m : Nat)
    (tr : List Event) (eo : Option Err) (r : Response) :
    iteration c req env m = (tr, IterOut.again eo r) →
    ∃ stgf, c.stg = some stgf ∧ m + 1 ≤ c.retry ∧
      (∃ j r' e', Event.retryHook m j r' e' true ∈ tr) ∧
      ∃ pre1, tr = pre1 ++ [Event.sleep m (stgf (m + 1))] ∧
        (∀ d2, Event.sleep m d2 ∉ pre1) ∧ countAS pre1 = 1 := by
  intro heq
  have lift2 : ∀ (hd : List Event),
      (∀ ev, ev ∈ hd → ev = Event.attemptStart m ∨ ev = Event.reqBodyRetry m) →
      countAS hd = 1 →
      hd ++ (iterationCore c req env m (c.h.GetCircuit (resolveName c req))).1 = tr →
      (iterationCore c req env m (c.h.GetCircuit (resolveName c req))).2 = IterOut.again eo r →
      ∃ stgf, c.stg = some stgf ∧ m + 1 ≤ c.retry ∧
        (∃ j r' e', Event.retryHook m j r' e' true ∈ tr) ∧
        ∃ pre1, tr = pre1 ++ [Event.sleep m (stgf (m + 1))] ∧
          (∀ d2, Event.sleep m d2 ∉ pre1) ∧ countAS pre1 = 1 := by
    intro hd hshape hcnt htr2 hout
    have hco : iterationCore c req env m (c.h.GetCircuit (resolveName c req)) =
        ((iterationCore c req env m (c.h.GetCircuit (resolveName c req))).1, IterOut.again eo r) := by
      rw [← hout]
    rcases iterationCore_again_inv c req env m _ _ eo r hco with
      ⟨stgf, hstg, hle, ⟨j, r', e', hj⟩, pre1, hpre, hnosleep, hAS⟩
    refine ⟨stgf, hstg, hle, ⟨j, r', e', ?_⟩, hd ++ pre1, ?_, ?_, ?_⟩
    · rw [← htr2]
      exact List.mem_append.mpr (Or.inr hj)
    · rw [← htr2, hpre, List.append_assoc]
    · intro d2 hmem
      rcases List.mem_append.mp hmem with hm1 | hm2
      · rcases hshape _ hm1 with hc2 | hc2 <;> cases hc2
      · exact hnosleep d2 hm2
    · rw [countAS_append, hAS, hcnt]
  by_cases hm : 1 ≤ m
  · rcases hb : env.reqBodyRetry m with e0 | b0
    · rw [iteration_eq1 c req env m e0 hm hb] at heq
      simp at heq
    · rw [iteration_eq2 c req env m b0 hm hb] at heq
      have h1 := congrArg Prod.fst heq
      have h2 := congrArg Prod.snd heq
      simp at h1 h2
      exact lift2 [Event.attemptStart m, Event.reqBodyRetry m]
        (by intro ev hmem; simp at hmem; tauto)
        (by simp [countAS_cons, countAS, isAS]) (by simpa using h1) h2
  · have hm0 : m = 0 := by omega
    subst hm0
    rw [iteration_eq3 c req env hm] at heq
    have h1 := congrArg Prod.fst heq
    have h2 := congrArg Prod.snd heq
    simp at h1 h2
    exact lift2 [Event.attemptStart 0]
      (by intro ev hmem; simp at hmem; exact Or.inl hmem)
      (by simp [countAS_cons, countAS, isAS]) (by simpa using h1) h2

lemma iteration_open_not_again (c : Cast) (req : Request) (env : Env) (n : Nat) (e : Err)
    (hcb : c.h.GetCircuit (resolveName c req) = true)
    (hrun : (env.attempt n).runExecuted = true)
    (htr : (env.attempt n).transport = Except.error e)
    (hio : (env.attempt n).isOpen = true) :
    ∀ (tr : List Event) (eo : Option Err) (r : Response),
      iteration c req env n ≠ (tr, IterOut.again eo r) := by
  intro tr eo r heq
  have hcore : (iterationCore c req env n (c.h.GetCircuit (resolveName c req))).2 = IterOut.again eo r := by
    by_cases hm : 1 ≤ n
    · rcases hb : env.reqBodyRetry n with e0 | b0
      · rw [iteration_eq1 c req env n e0 hm hb] at heq
        simp at heq
      · rw [iteration_eq2 c req env n b0 hm hb] at heq
        have := congrArg Prod.snd heq
        simpa using this
    · have hm0 : n = 0 := by omega
      subst hm0
      rw [iteration_eq3 c req env hm] at heq
      have := congrArg Prod.snd heq
      simpa using this
  rw [hcb, iterationCore_eq4 c req env n e htr hrun] at hcore
  rw [afterResponse_open_halt c env n (some e) _ hio] at hcore
  simp at hcore

lemma sleep_afterResponse (c : Cast) (env : Env) (m : Nat) (fallback : Bool) (errA : Option Err) (resp : Response)
    (nn d : Nat) :
    Event.sleep nn d ∈ (afterResponse c env m fallback errA resp).1 →
    nn = m ∧ d = backoffOf c.stg (m + 1) ∧
    ∃ eo r, (afterResponse c env m fallback errA resp).2 = IterOut.again eo r := by
  intro h
  by_cases hf : (fallback && (env.attempt m).isOpen) = true
  · simp only [afterResponse, hf, if_true] at h
    have := mem_openEvts m fallback _ _ h
    cases this
  · by_cases hd : ((runRetryHooksAux (some resp) errA m c.retryHooks 0).2 && decide (m + 1 ≤ c.retry) && c.stg.isSome) = true
    · simp only [afterResponse, hf, if_false, Bool.false_eq_true, hd, if_true] at h ⊢
      rcases List.mem_append.mp h with h1 | h2
      · rcases List.mem_append.mp h1 with h3 | h4
        · have := mem_openEvts m fallback _ _ h3
          cases this
        · rcases runRetryHooksAux_mem _ _ _ _ _ _ h4 with ⟨j, v, hev, _, _⟩
          cases hev
      · simp at h2
        exact ⟨h2.1, h2.2, errA, resp, rfl⟩
    · simp only [afterResponse, hf, if_false, Bool.false_eq_true, hd, if_true] at h
      rcases List.mem_append.mp h with h1 | h2
      · have := mem_openEvts m fallback _ _ h1
        cases this
      · rcases runRetryHooksAux_mem _ _ _ _ _ _ h2 with ⟨j, v, hev, _, _⟩
        cases hev

lemma sleep_iterationCore_again (c : Cast) (req : Request) (env : Env) (m : Nat) (cbSome : Bool) (nn d : Nat) :
    Event.sleep nn d ∈ (iterationCore c req env m cbSome).1 →
    nn = m ∧ ∃ eo r, (iterationCore c req env m cbSome).2 = IterOut.again eo r := by
  intro h
  have lift : ∀ (tevts : List Event) (fallback : Bool) (errA : Option Err) (resp : Response),
      (∀ ev, ev ∈ tevts → (∃ c2, ev = Event.breakerExec m c2) ∨ ev = Event.transportCall m) →
      Event.sleep nn d ∈ tevts ++ (afterResponse c env m fallback errA resp).1 →
      nn = m ∧ ∃ eo r, (afterResponse c env m fallback errA resp).2 = IterOut.again eo r := by
    intro tevts fallback errA resp hshape hmem
    rcases List.mem_append.mp hmem with h1 | h2
    · rcases hshape _ h1 with ⟨c2, hc2⟩ | hc2 <;> cases hc2
    · rcases sleep_afterResponse c env m fallback errA resp nn d h2 with ⟨hnm, _, eo, r, hout⟩
      exact ⟨hnm, eo, r, hout⟩
  cases cbSome with
  | false =>
    rcases htr : (env.attempt m).transport with e0 | r0
    · rw [iterationCore_eq9 c req env m e0 htr] at h ⊢
      exact lift _ _ _ _ (by intro ev hmem; simp at hmem; subst hmem; exact Or.inr rfl) h
    · rcases hre : r0.readResult with e1 | b1
      · rw [iterationCore_eq6 c req env m r0 e1 htr hre] at h
        simp at h
      · rcases hcl : r0.closeResult with _ | e2
        · rw [iterationCore_eq8 c req env m r0 b1 htr hre hcl] at h ⊢
          exact lift _ _ _ _ (by intro ev hmem; simp at hmem; subst hmem; exact Or.inr rfl) h
        · rw [iterationCore_eq7 c req env m r0 b1 e2 htr hre hcl] at h
          simp at h
  | true =>
    rcases hrun : (env.attempt m).runExecuted with _ | _
    · rw [iterationCore_eq5 c req env m hrun] at h ⊢
      exact lift _ _ _ _ (by intro ev hmem; simp at hmem; subst hmem; exact Or.inl ⟨_, rfl⟩) h
    · rcases htr : (env.attempt m).transport with e0 | r0
      · rw [iterationCore_eq4 c req env m e0 htr hrun] at h ⊢
        refine lift _ _ _ _ ?_ h
        intro ev hmem
        rcases List.mem_cons.mp hmem with h1 | h2
        · exact Or.inl ⟨_, h1⟩
        · simp at h2
          exact Or.inr h2
      · rcases hre : r0.readResult with e1 | b1
        · rw [iterationCore_eq1 c req env m r0 e1 htr hrun hre] at h
          simp at h
        · rcases hcl : r0.closeResult with _ | e2
          · rw [iterationCore_eq3 c req env m r0 b1 htr hrun hre hcl] at h ⊢
            refine lift _ _ _ _ ?_ h
            intro ev hmem
            rcases List.mem_cons.mp hmem with h1 | h2
            · exact Or.inl ⟨_, h1⟩
            · simp at h2
              exact Or.inr h2
          · rw [iterationCore_eq2 c req env m r0 b1 e2 htr hrun hre hcl] at h
            simp at h

lemma sleep_iteration_again (c : Cast) (req : Request) (env : Env) (m nn d : Nat) :
    Event.sleep nn d ∈ (iteration c req env m).1 →
    nn = m ∧ ∃ eo r, (iteration c req env m).2 = IterOut.again eo r := by
  intro h
  by_cases hm : 1 ≤ m
  · rcases hb : env.reqBodyRetry m with e0 | b0
    · rw [iteration_eq1 c req env m e0 hm hb] at h
      simp at h
    · rw [iteration_eq2 c req env m b0 hm hb] at h ⊢
      rcases List.mem_cons.mp h with h1 | h2
      · cases h1
      · rcases List.mem_cons.mp h2 with h3 | h4
        · cases h3
        · exact sleep_iterationCore_again c req env m _ nn d h4
  · have hm0 : m = 0 := by omega
    subst hm0
    rw [iteration_eq3 c req env hm] at h ⊢
    rcases List.mem_cons.mp h with h1 | h2
    · cases h1
    · exact sleep_iterationCore_again c req env 0 _ nn d h2

lemma genReplyLoop_head (c : Cast) (req : Request) (env : Env) (rem count : Nat) (eo : Option Err) (ro : Option Response)
    (hrem : 1 ≤ rem) :
    ∃ t, (genReplyLoop c req env rem count eo ro).1 = Event.attemptStart count :: t := by
  rcases rem with _ | rem2
  · omega
  · rcases hit : iteration c req env count with ⟨tr, o⟩
    rcases iteration_head c req env count with ⟨t0, ht0⟩
    rw [hit] at ht0
    simp at ht0
    cases o with
    | abort e =>
      simp only [genReplyLoop, hit]
      exact ⟨t0, by simpa using ht0⟩
    | halt e1 r =>
      simp only [genReplyLoop, hit]
      exact ⟨t0, by simpa using ht0⟩
    | again e1 r =>
      simp only [genReplyLoop, hit]
      refine ⟨t0 ++ (genReplyLoop c req env rem2 (count + 1) e1 (some r)).1, ?_⟩
      rw [ht0]
      simp

lemma sleep_genReplyLoop (c : Cast) (req : Request) (env : Env) :
    ∀ (rem count : Nat) (eo : Option Err) (ro : Option Response) (nn d : Nat),
      rem + count = c.retry + 1 →
      Event.sleep nn d ∈ (genReplyLoop c req env rem count eo ro).1 →
      ∃ stgf pre post, c.stg = some stgf ∧ d = stgf (nn + 1) ∧ count ≤ nn ∧ nn + 1 ≤ c.retry ∧
        (genReplyLoop c req env rem count eo ro).1 =
          pre ++ Event.sleep nn d :: Event.attemptStart (nn + 1) :: post ∧
        countAS pre = nn + 1 - count := by
  intro rem
  induction rem with
  | zero => intro count eo ro nn d _ h; simp [genReplyLoop] at h
  | succ rem ih =>
    intro count eo ro nn d hinv h
    rcases hit : iteration c req env count with ⟨tr, o⟩
    cases o with
    | abort e =>
      simp only [genReplyLoop, hit] at h ⊢
      rcases sleep_iteration_again c req env count nn d (by rw [hit]; exact h) with ⟨hnm, eo2, r2, hout⟩
      rw [hit] at hout
      simp at hout
    | halt e1 r =>
      simp only [genReplyLoop, hit] at h ⊢
      rcases sleep_iteration_again c req env count nn d (by rw [hit]; exact h) with ⟨hnm, eo2, r2, hout⟩
      rw [hit] at hout
      simp at hout
    | again e1 r =>
      simp only [genReplyLoop, hit] at h ⊢
      rcases iteration_again_inv c req env count tr e1 r hit with
        ⟨stgf, hstg, hle, _, pre1, hpre, hnosleep, hAS⟩
      rcases List.mem_append.mp h with h1 | h2
      · -- the sleep is the one ending this iteration's trace
        have hnm : nn = count := by
          have := evIdx_iteration c req env count (Event.sleep nn d) (by rw [hit]; exact h1)
          simpa [evIdx] using this
        subst hnm
        rw [hpre] at h1
        rcases List.mem_append.mp h1 with h3 | h4
        · exact absurd h3 (hnosleep d)
        · simp at h4
          subst h4
          have hrem1 : 1 ≤ rem := by omega
          rcases genReplyLoop_head c req env rem (nn + 1) e1 (some r) hrem1 with ⟨t3, ht3⟩
          refine ⟨stgf, pre1, t3, hstg, rfl, le_refl nn, hle, ?_, ?_⟩
          · rw [hpre, ht3]
            simp
          · omega
      · have hidx := mem_genReplyLoop c req env rem (nn + 1) e1 (some r)
        rcases ih (count + 1) e1 (some r) nn d (by omega) h2 with
          ⟨stgf2, pre2, post2, hstg2, hd2, hcn, hle2, hsplit, hASpre⟩
        have hAStr : countAS tr = 1 := by
          have := (countTC_iteration c req env count).2
          rw [hit] at this
          simpa using this
        refine ⟨stgf2, tr ++ pre2, post2, hstg2, hd2, by omega, hle2, ?_, ?_⟩
        · rw [hsplit]
          simp
        · rw [countAS_append, hAStr]
          omega

/-! ### Connecting `Do` to the retry loop -/

lemma genReply_fst (c : Cast) (req : Request) (env : Env) :
    (Cast.genReply c req env).1 = (genReplyLoop c req env (c.retry + 1) 0 none none).1 := by
  rcases hl : genReplyLoop c req env (c.retry + 1) 0 none none with ⟨tr, res⟩
  cases res with
  | error e => simp [Cast.genReply, hl]
  | ok p =>
    rcases p with ⟨eo, ro⟩
    cases eo with
    | none => simp [Cast.genReply, hl]
    | some e => simp [Cast.genReply, hl]

lemma genReply_err_of_loop (c : Cast) (req : Request) (env : Env) (e : Err) :
    (genReplyLoop c req env (c.retry + 1) 0 none none).2 = Except.error e →
    (Cast.genReply c req env).2 = Except.error e := by
  intro h
  rcases hl : genReplyLoop c req env (c.retry + 1) 0 none none with ⟨tr, res⟩
  rw [hl] at h
  simp at h
  cases res with
  | error e2 => simp at h; subst h; simp [Cast.genReply, hl]
  | ok p => simp at h

lemma hookTr_idx (mk : Nat → Event) (hmk : ∀ i, evIdx (mk i) = none) :
    ∀ (l : List (Option Err)) (i : Nat) (ev : Event),
      ev ∈ (runHookChainAux mk i l).1 → evIdx ev = none := by
  intro l i ev h
  rcases runHookChainAux_mem mk l i ev h with ⟨j, hj⟩
  subst hj
  exact hmk j

lemma isAS_false_of_idx_none (ev : Event) (h : evIdx ev = none) : isAS ev = false := by
  cases ev <;> simp [isAS] <;> simp [evIdx] at h

lemma Do_loop_decomp (c : Cast) (ctx : GoContext) (req : Request) (env : Env) (ev : Event) (n : Nat)
    (hidx : evIdx ev = some n) (hmem : ev ∈ (Cast.Do c ctx req env).1) :
    ev ∈ (Cast.genReply c req env).1 ∧
    (∀ ev2, ev2 ∈ (Cast.genReply c req env).1 → ev2 ∈ (Cast.Do c ctx req env).1) ∧
    (∀ e, (Cast.genReply c req env).2 = Except.error e → (Cast.Do c ctx req env).2 = Except.error e) ∧
    ∃ A B, (Cast.Do c ctx req env).1 = A ++ (Cast.genReply c req env).1 ++ B ∧
      countAS A = 0 ∧ (∀ ev2, ev2 ∈ A → evIdx ev2 = none) ∧ (∀ ev2, ev2 ∈ B → evIdx ev2 = none) := by
  rcases hbi : env.reqBodyInit with e0 | b0
  · simp only [Cast.Do, hbi] at hmem
    simp at hmem
  · rcases hbc : runHookChainAux Event.beforeHook 0 c.beforeRequestHooks with ⟨tr1, o1⟩
    have htr1 : ∀ ev2, ev2 ∈ tr1 → evIdx ev2 = none := by
      intro ev2 h2
      exact hookTr_idx Event.beforeHook (fun i => rfl) c.beforeRequestHooks 0 ev2 (by rw [hbc]; exact h2)
    cases o1 with
    | some e1 =>
      simp only [Cast.Do, hbi, hbc] at hmem
      rw [htr1 ev hmem] at hidx
      cases hidx
    | none =>
      rcases hbr : env.buildRequest with _ | e2
      · rcases hrc : runHookChainAux Event.requestHook 0 c.requestHooks with ⟨tr2, o2⟩
        have htr2 : ∀ ev2, ev2 ∈ tr2 → evIdx ev2 = none := by
          intro ev2 h2
          exact hookTr_idx Event.requestHook (fun i => rfl) c.requestHooks 0 ev2 (by rw [hrc]; exact h2)
        have hA : ∀ ev2, ev2 ∈ tr1 ++ Event.newRawRequest ctx :: tr2 → evIdx ev2 = none := by
          intro ev2 h2
          rcases List.mem_append.mp h2 with h3 | h4
          · exact htr1 ev2 h3
          · rcases List.mem_cons.mp h4 with h5 | h6
            · subst h5
              rfl
            · exact htr2 ev2 h6
        have hAcnt : countAS (tr1 ++ Event.newRawRequest ctx :: tr2) = 0 :=
          countAS_zero_of _ (fun ev2 h2 => isAS_false_of_idx_none ev2 (hA ev2 h2))
        cases o2 with
        | some e3 =>
          simp only [Cast.Do, hbi, hbc, hbr, hrc] at hmem
          rw [hA ev hmem] at hidx
          cases hidx
        | none =>
          rcases hgr : Cast.genReply c req env with ⟨tr3, res3⟩
          cases res3 with
          | error e4 =>
            simp only [Cast.Do, hbi, hbc, hbr, hrc, hgr] at hmem ⊢
            have hev3 : ev ∈ tr3 := by
              rcases List.mem_append.mp hmem with h1 | h2
              · rw [hA ev h1] at hidx
                cases hidx
              · exact h2
            refine ⟨hev3, ?_, ?_, tr1 ++ Event.newRawRequest ctx :: tr2, [], by simp, hAcnt, hA, by simp⟩
            · intro ev2 h2
              exact List.mem_append.mpr (Or.inr h2)
            · intro e he
              simp at he
              subst he
              rfl
          | ok rep =>
            rcases hresp : runHookChainAux Event.responseHook 0 c.responseHooks with ⟨tr4, o4⟩
            have htr4 : ∀ ev2, ev2 ∈ tr4 → evIdx ev2 = none := by
              intro ev2 h2
              exact hookTr_idx Event.responseHook (fun i => rfl) c.responseHooks 0 ev2 (by rw [hresp]; exact h2)
            cases o4 with
            | some e5 =>
              simp only [Cast.Do, hbi, hbc, hbr, hrc, hgr, hresp] at hmem ⊢
              have hev3 : ev ∈ tr3 := by
                rcases List.mem_append.mp hmem with h1 | h8
                · rcases List.mem_append.mp h1 with h2 | h3
                  · rw [hA ev h2] at hidx
                    cases hidx
                  · exact h3
                · rw [htr4 ev h8] at hidx
                  cases hidx
              refine ⟨hev3, ?_, ?_, tr1 ++ Event.newRawRequest ctx :: tr2, tr4, rfl, hAcnt, hA, htr4⟩
              · intro ev2 h2
                exact List.mem_append.mpr (Or.inl (List.mem_append.mpr (Or.inr h2)))
              · intro e he
                simp at he
            | none =>
              simp only [Cast.Do, hbi, hbc, hbr, hrc, hgr, hresp] at hmem ⊢
              have hev3 : ev ∈ tr3 := by
                rcases List.mem_append.mp hmem with h1 | h8
                · rcases List.mem_append.mp h1 with h2 | h3
                  · rw [hA ev h2] at hidx
                    cases hidx
                  · exact h3
                · rw [htr4 ev h8] at hidx
                  cases hidx
              refine ⟨hev3, ?_, ?_, tr1 ++ Event.newRawRequest ctx :: tr2, tr4, rfl, hAcnt, hA, htr4⟩
              · intro ev2 h2
                exact List.mem_append.mpr (Or.inl (List.mem_append.mpr (Or.inr h2)))
              · intro e he
                simp at he
      · simp only [Cast.Do, hbi, hbc, hbr] at hmem
        rw [htr1 ev hmem] at hidx
        cases hidx

lemma isTC_false_of_idx_none (ev : Event) (h : evIdx ev = none) : isTC ev = false := by
  cases ev <;> simp [isTC] <;> simp [evIdx] at h

lemma Do_counts (c : Cast) (ctx : GoContext) (req : Request) (env : Env) :
    (countTC (Cast.Do c ctx req env).1 = 0 ∧ countAS (Cast.Do c ctx req env).1 = 0) ∨
    (countTC (Cast.Do c ctx req env).1 = countTC (Cast.genReply c req env).1 ∧
     countAS (Cast.Do c ctx req env).1 = countAS (Cast.genReply c req env).1) := by
  rcases hbi : env.reqBodyInit with e0 | b0
  · left
    simp [Cast.Do, hbi, countTC, countAS]
  · rcases hbc : runHookChainAux Event.beforeHook 0 c.beforeRequestHooks with ⟨tr1, o1⟩
    have htr1 : ∀ ev2, ev2 ∈ tr1 → evIdx ev2 = none := by
      intro ev2 h2
      exact hookTr_idx Event.beforeHook (fun i => rfl) c.beforeRequestHooks 0 ev2 (by rw [hbc]; exact h2)
    have h1tc : countTC tr1 = 0 := countTC_zero_of _ (fun ev2 h2 => isTC_false_of_idx_none ev2 (htr1 ev2 h2))
    have h1as : countAS tr1 = 0 := countAS_zero_of _ (fun ev2 h2 => isAS_false_of_idx_none ev2 (htr1 ev2 h2))
    cases o1 with
    | some e1 =>
      left
      simp [Cast.Do, hbi, hbc, h1tc, h1as]
    | none =>
      rcases hbr : env.buildRequest with _ | e2
      · rcases hrc : runHookChainAux Event.requestHook 0 c.requestHooks with ⟨tr2, o2⟩
        have htr2 : ∀ ev2, ev2 ∈ tr2 → evIdx ev2 = none := by
          intro ev2 h2
          exact hookTr_idx Event.requestHook (fun i => rfl) c.requestHooks 0 ev2 (by rw [hrc]; exact h2)
        have h2tc : countTC tr2 = 0 := countTC_zero_of _ (fun ev2 h2 => isTC_false_of_idx_none ev2 (htr2 ev2 h2))
        have h2as : countAS tr2 = 0 := countAS_zero_of _ (fun ev2 h2 => isAS_false_of_idx_none ev2 (htr2 ev2 h2))
        cases o2 with
        | some e3 =>
          left
          simp only [Cast.Do, hbi, hbc, hbr, hrc]
          rw [countTC_append, countAS_append, countTC_cons, countAS_cons]
          simp [h1tc, h1as, h2tc, h2as, isTC, isAS]
        | none =>
          rcases hgr : Cast.genReply c req env with ⟨tr3, res3⟩
          cases res3 with
          | error e4 =>
            right
            simp only [Cast.Do, hbi, hbc, hbr, hrc, hgr]
            rw [countTC_append, countAS_append, countTC_append, countAS_append, countTC_cons, countAS_cons]
            simp [h1tc, h1as, h2tc, h2as, isTC, isAS]
          | ok rep =>
            rcases hresp : runHookChainAux Event.responseHook 0 c.responseHooks with ⟨tr4, o4⟩
            have htr4 : ∀ ev2, ev2 ∈ tr4 → evIdx ev2 = none := by
              intro ev2 h2
              exact hookTr_idx Event.responseHook (fun i => rfl) c.responseHooks 0 ev2 (by rw [hresp]; exact h2)
            have h4tc : countTC tr4 = 0 := countTC_zero_of _ (fun ev2 h2 => isTC_false_of_idx_none ev2 (htr4 ev2 h2))
            have h4as : countAS tr4 = 0 := countAS_zero_of _ (fun ev2 h2 => isAS_false_of_idx_none ev2 (htr4 ev2 h2))
            right
            cases o4 with
            | some e5 =>
              simp only [Cast.Do, hbi, hbc, hbr, hrc, hgr, hresp]
              rw [countTC_append, countAS_append, countTC_append, countAS_append,
                countTC_append, countAS_append, countTC_cons, countAS_cons]
              simp [h1tc, h1as, h2tc, h2as, h4tc, h4as, isTC, isAS]
            | none =>
              simp only [Cast.Do, hbi, hbc, hbr, hrc, hgr, hresp]
              rw [countTC_append, countAS_append, countTC_append, countAS_append,
                countTC_append, countAS_append, countTC_cons, countAS_cons]
              simp [h1tc, h1as, h2tc, h2as, h4tc, h4as, isTC, isAS]
      · left
        simp [Cast.Do, hbi, hbc, hbr, h1tc, h1as]

/-- C1: for every configured retry count `R = c.retry ≥ 0` (the model uses
`Nat`, so non-negativity is structural) and every `Do` call, the engine
performs at most `R + 1` transport attempts: the loop runs at most
`R + 1` iterations (attempt count starts at 0, the loop continues only
while `count ≤ R`, and the counter advances exactly once per iteration),
and each iteration performs at most one transport call. -/
theorem do_transport_attempts_bounded (c : Cast) (ctx : GoContext) (req : Request) (env : Env) :
    countTC (Cast.Do c ctx req env).1 ≤ c.retry + 1 ∧
    countAS (Cast.Do c ctx req env).1 ≤ c.retry + 1 ∧
    countTC (Cast.Do c ctx req env).1 ≤ countAS (Cast.Do c ctx req env).1 := by
  have hl := genReplyLoop_counts c req env (c.retry + 1) 0 none none
  have hg1 : countTC (Cast.genReply c req env).1 ≤ c.retry + 1 := by
    rw [genReply_fst]
    exact hl.1
  have hg2 : countAS (Cast.genReply c req env).1 ≤ c.retry + 1 := by
    rw [genReply_fst]
    exact hl.2.1
  have hg3 : countTC (Cast.genReply c req env).1 ≤ countAS (Cast.genReply c req env).1 := by
    rw [genReply_fst]
    exact hl.2.2
  rcases Do_counts c ctx req env with ⟨hz1, hz2⟩ | ⟨he1, he2⟩
  · omega
  · omega

/-- C7: if the initial body materialization `request.ReqBody()` fails at
the start of `Do`, that error is returned immediately and nothing else
runs: the event trace is empty, so no before-request hook, no request
construction, no request hook, no transport attempt and no response hook
was executed. -/
theorem do_reqBody_failfast (c : Cast) (ctx : GoContext) (req : Request) (env : Env) (e : Err)
    (h : env.reqBodyInit = Except.error e) :
    Cast.Do c ctx req env = ([], Except.error e) := by
  simp [Cast.Do, h]

lemma evIdx_genReply (c : Cast) (req : Request) (env : Env) (ev : Event) :
    ev ∈ (Cast.genReply c req env).1 → ∃ m, evIdx ev = some m := by
  intro h
  rw [genReply_fst] at h
  rcases mem_genReplyLoop c req env (c.retry + 1) 0 none none ev h with ⟨m, _, hmem, _⟩
  exact ⟨m, evIdx_iteration c req env m ev hmem⟩

lemma Do_mem_aux (c : Cast) (ctx : GoContext) (req : Request) (env : Env) (ev : Event)
    (hmem : ev ∈ (Cast.Do c ctx req env).1) :
    (∃ j, ev = Event.beforeHook j) ∨ ev = Event.newRawRequest ctx ∨ (∃ j, ev = Event.requestHook j) ∨
    (ev ∈ (Cast.genReply c req env).1) ∨
    ((∃ j, ev = Event.responseHook j) ∧ ∃ rep tr3, Cast.genReply c req env = (tr3, Except.ok rep)) := by
  rcases hbi : env.reqBodyInit with e0 | b0
  · simp only [Cast.Do, hbi] at hmem
    simp at hmem
  · rcases hbc : runHookChainAux Event.beforeHook 0 c.beforeRequestHooks with ⟨tr1, o1⟩
    have htr1 : ∀ ev2, ev2 ∈ tr1 → ∃ j, ev2 = Event.beforeHook j := by
      intro ev2 h2
      exact runHookChainAux_mem Event.beforeHook c.beforeRequestHooks 0 ev2 (by rw [hbc]; exact h2)
    cases o1 with
    | some e1 =>
      simp only [Cast.Do, hbi, hbc] at hmem
      exact Or.inl (htr1 ev hmem)
    | none =>
      rcases hbr : env.buildRequest with _ | e2
      · rcases hrc : runHookChainAux Event.requestHook 0 c.requestHooks with ⟨tr2, o2⟩
        have htr2 : ∀ ev2, ev2 ∈ tr2 → ∃ j, ev2 = Event.requestHook j := by
          intro ev2 h2
          exact runHookChainAux_mem Event.requestHook c.requestHooks 0 ev2 (by rw [hrc]; exact h2)
        have hsplitA : ∀ ev2, ev2 ∈ tr1 ++ Event.newRawRequest ctx :: tr2 →
            (∃ j, ev2 = Event.beforeHook j) ∨ ev2 = Event.newRawRequest ctx ∨ (∃ j, ev2 = Event.requestHook j) := by
          intro ev2 h2
          rcases List.mem_append.mp h2 with h3 | h4
          · exact Or.inl (htr1 ev2 h3)
          · rcases List.mem_cons.mp h4 with h5 | h6
            · exact Or.inr (Or.inl h5)
            · exact Or.inr (Or.inr (htr2 ev2 h6))
        cases o2 with
        | some e3 =>
          simp only [Cast.Do, hbi, hbc, hbr, hrc] at hmem
          rcases hsplitA ev hmem with h | h | h
          · exact Or.inl h
          · exact Or.inr (Or.inl h)
          · exact Or.inr (Or.inr (Or.inl h))
        | none =>
          rcases hgr : Cast.genReply c req env with ⟨tr3, res3⟩
          cases res3 with
          | error e4 =>
            simp only [Cast.Do, hbi, hbc, hbr, hrc, hgr] at hmem
            rcases List.mem_append.mp hmem with h1 | h2
            · rcases hsplitA ev h1 with h | h | h
              · exact Or.inl h
              · exact Or.inr (Or.inl h)
              · exact Or.inr (Or.inr (Or.inl h))
            · exact Or.inr (Or.inr (Or.inr (Or.inl h2)))
          | ok rep =>
            rcases hresp : runHookChainAux Event.responseHook 0 c.responseHooks with ⟨tr4, o4⟩
            have htr4 : ∀ ev2, ev2 ∈ tr4 → ∃ j, ev2 = Event.responseHook j := by
              intro ev2 h2
              exact runHookChainAux_mem Event.responseHook c.responseHooks 0 ev2 (by rw [hresp]; exact h2)
            have hfin : ev ∈ ((tr1 ++ Event.newRawRequest ctx :: tr2) ++ tr3) ++ tr4 →
                (∃ j, ev = Event.beforeHook j) ∨ ev = Event.newRawRequest ctx ∨ (∃ j, ev = Event.requestHook j) ∨
                (ev ∈ (Cast.genReply c req env).1) ∨
                ((∃ j, ev = Event.responseHook j) ∧ ∃ rep2 tr5, Cast.genReply c req env = (tr5, Except.ok rep2)) := by
              intro hm2
              rcases List.mem_append.mp hm2 with h1 | h8
              · rcases List.mem_append.mp h1 with h2 | h3
                · rcases hsplitA ev h2 with h | h | h
                  · exact Or.inl h
                  · exact Or.inr (Or.inl h)
                  · exact Or.inr (Or.inr (Or.inl h))
                · refine Or.inr (Or.inr (Or.inr (Or.inl ?_)))
                  rw [hgr]
                  exact h3
              · exact Or.inr (Or.inr (Or.inr (Or.inr ⟨htr4 ev h8, rep, tr3, hgr⟩)))
            cases o4 with
            | some e5 =>
              simp only [Cast.Do, hbi, hbc, hbr, hrc, hgr, hresp] at hmem
              rw [← hgr]
              exact hfin hmem
            | none =>
              simp only [Cast.Do, hbi, hbc, hbr, hrc, hgr, hresp] at hmem
              rw [← hgr]
              exact hfin hmem
      · simp only [Cast.Do, hbi, hbc, hbr] at hmem
        exact Or.inl (htr1 ev hmem)

/-! ### Full retry-hook inversion for one iteration -/

lemma iterationCore_retryHook_inv (c : Cast) (req : Request) (env : Env) (m : Nat) (cbSome : Bool)
    (n j : Nat) (r' : Option Response) (e' : Option Err) (v : Bool) :
    Event.retryHook n j r' e' v ∈ (iterationCore c req env m cbSome).1 →
    n = m ∧ (∃ hk, c.retryHooks.get? j = some hk ∧ v = hk r' e') ∧
    (∃ resp, r' = some resp ∧ resp.request = req ∧
      (resp.rawResponse = none → resp.body = [] ∧ resp.statusCode = 0)) ∧
    (∀ j', j' < j → Event.retryHook m j' r' e' false ∈ (iterationCore c req env m cbSome).1) ∧
    (v = true → ∀ (j2 : Nat) (r2 : Option Response) (e2 : Option Err) (v2 : Bool), j < j2 →
      Event.retryHook m j2 r2 e2 v2 ∉ (iterationCore c req env m cbSome).1) := by
  intro hmem
  have lift : ∀ (tevts : List Event) (fallback : Bool) (errA : Option Err) (resp : Response),
      (∀ ev, ev ∈ tevts → (∃ c2, ev = Event.breakerExec m c2) ∨ ev = Event.transportCall m) →
      resp.request = req →
      (resp.rawResponse = none → resp.body = [] ∧ resp.statusCode = 0) →
      Event.retryHook n j r' e' v ∈ tevts ++ (afterResponse c env m fallback errA resp).1 →
      n = m ∧ (∃ hk, c.retryHooks.get? j = some hk ∧ v = hk r' e') ∧
      (∃ resp2, r' = some resp2 ∧ resp2.request = req ∧
        (resp2.rawResponse = none → resp2.body = [] ∧ resp2.statusCode = 0)) ∧
      (∀ j', j' < j → Event.retryHook m j' r' e' false ∈ tevts ++ (afterResponse c env m fallback errA resp).1) ∧
      (v = true → ∀ (j2 : Nat) (r2 : Option Response) (e2 : Option Err) (v2 : Bool), j < j2 →
        Event.retryHook m j2 r2 e2 v2 ∉ tevts ++ (afterResponse c env m fallback errA resp).1) := by
    intro tevts fallback errA resp hshape hreq hzero hm2
    have har : Event.retryHook n j r' e' v ∈ (afterResponse c env m fallback errA resp).1 := by
      rcases List.mem_append.mp hm2 with h1 | h2
      · rcases hshape _ h1 with ⟨c2, hc2⟩ | hc2 <;> cases hc2
      · exact h2
    rcases afterResponse_retryHooks c env m fallback errA resp n j r' e' v har with
      ⟨hnm, hr, he, hget, hearlier, hsc⟩
    subst hnm
    subst hr
    subst he
    refine ⟨rfl, hget, ⟨resp, rfl, hreq, hzero⟩, ?_, ?_⟩
    · intro j' hj'
      exact List.mem_append.mpr (Or.inr (hearlier j' hj'))
    · intro hvt j2 r2 e2 v2 hlt hmem2
      rcases List.mem_append.mp hmem2 with h1 | h2
      · rcases hshape _ h1 with ⟨c2, hc2⟩ | hc2 <;> cases hc2
      · exact hsc hvt j2 r2 e2 v2 hlt h2
  cases cbSome with
  | false =>
    rcases htr : (env.attempt m).transport with e0 | r0
    · rw [iterationCore_eq9 c req env m e0 htr] at hmem ⊢
      exact lift _ _ _ _ (by intro ev hm3; simp at hm3; subst hm3; exact Or.inr rfl) rfl
        (by intro _; exact ⟨rfl, rfl⟩) hmem
    · rcases hre : r0.readResult with e1 | b1
      · rw [iterationCore_eq6 c req env m r0 e1 htr hre] at hmem
        simp at hmem
      · rcases hcl : r0.closeResult with _ | e2
        · rw [iterationCore_eq8 c req env m r0 b1 htr hre hcl] at hmem ⊢
          exact lift _ _ _ _ (by intro ev hm3; simp at hm3; subst hm3; exact Or.inr rfl) rfl
            (by intro hc; simp at hc) hmem
        · rw [iterationCore_eq7 c req env m r0 b1 e2 htr hre hcl] at hmem
          simp at hmem
  | true =>
    rcases hrun : (env.attempt m).runExecuted with _ | _
    · rw [iterationCore_eq5 c req env m hrun] at hmem ⊢
      exact lift _ _ _ _ (by intro ev hm3; simp at hm3; subst hm3; exact Or.inl ⟨_, rfl⟩) rfl
        (by intro _; exact ⟨rfl, rfl⟩) hmem
    · rcases htr : (env.attempt m).transport with e0 | r0
      · rw [iterationCore_eq4 c req env m e0 htr hrun] at hmem ⊢
        refine lift _ _ _ _ ?_ rfl (by intro _; exact ⟨rfl, rfl⟩) hmem
        intro ev hm3
        rcases List.mem_cons.mp hm3 with h1 | h2
        · exact Or.inl ⟨_, h1⟩
        · simp at h2
          exact Or.inr h2
      · rcases hre : r0.readResult with e1 | b1
        · rw [iterationCore_eq1 c req env m r0 e1 htr hrun hre] at hmem
          simp at hmem
        · rcases hcl : r0.closeResult with _ | e2
          · rw [iterationCore_eq3 c req env m r0 b1 htr hrun hre hcl] at hmem ⊢
            refine lift _ _ _ _ ?_ rfl (by intro hc; simp at hc) hmem
            intro ev hm3
            rcases List.mem_cons.mp hm3 with h1 | h2
            · exact Or.inl ⟨_, h1⟩
            · simp at h2
              exact Or.inr h2
          · rw [iterationCore_eq2 c req env m r0 b1 e2 htr hrun hre hcl] at hmem
            simp at hmem

lemma iteration_retryHook_inv (c : Cast) (req : Request) (env : Env) (m : Nat)
    (n j : Nat) (r' : Option Response) (e' : Option Err) (v : Bool) :
    Event.retryHook n j r' e' v ∈ (iteration c req env m).1 →
    n = m ∧ (∃ hk, c.retryHooks.get? j = some hk ∧ v = hk r' e') ∧
    (∃ resp, r' = some resp ∧ resp.request = req ∧
      (resp.rawResponse = none → resp.body = [] ∧ resp.statusCode = 0)) ∧
    (∀ j', j' < j → Event.retryHook m j' r' e' false ∈ (iteration c req env m).1) ∧
    (v = true → ∀ (j2 : Nat) (r2 : Option Response) (e2 : Option Err) (v2 : Bool), j < j2 →
      Event.retryHook m j2 r2 e2 v2 ∉ (iteration c req env m).1) := by
  intro hmem
  have lift2 : ∀ (hd : List Event),
      (∀ ev, ev ∈ hd → ev = Event.attemptStart m ∨ ev = Event.reqBodyRetry m) →
      Event.retryHook n j r' e' v ∈ hd ++ (iterationCore c req env m (c.h.GetCircuit (resolveName c req))).1 →
      n = m ∧ (∃ hk, c.retryHooks.get? j = some hk ∧ v = hk r' e') ∧
      (∃ resp, r' = some resp ∧ resp.request = req ∧
        (resp.rawResponse = none → resp.body = [] ∧ resp.statusCode = 0)) ∧
      (∀ j', j' < j → Event.retryHook m j' r' e' false ∈ hd ++ (iterationCore c req env m (c.h.GetCircuit (resolveName c req))).1) ∧
      (v = true → ∀ (j2 : Nat) (r2 : Option Response) (e2 : Option Err) (v2 : Bool), j < j2 →
        Event.retryHook m j2 r2 e2 v2 ∉ hd ++ (iterationCore c req env m (c.h.GetCircuit (resolveName c req))).1) := by
    intro hd hshape hm2
    have hco : Event.retryHook n j r' e' v ∈ (iterationCore c req env m (c.h.GetCircuit (resolveName c req))).1 := by
      rcases List.mem_append.mp hm2 with h1 | h2
      · rcases hshape _ h1 with hc2 | hc2 <;> cases hc2
      · exact h2
    rcases iterationCore_retryHook_inv c req env m _ n j r' e' v hco with
      ⟨hnm, hget, hresp, hearlier, hsc⟩
    refine ⟨hnm, hget, hresp, ?_, ?_⟩
    · intro j' hj'
      exact List.mem_append.mpr (Or.inr (hearlier j' hj'))
    · intro hvt j2 r2 e2 v2 hlt hmem2
      rcases List.mem_append.mp hmem2 with h1 | h2
      · rcases hshape _ h1 with hc2 | hc2 <;> cases hc2
      · exact hsc hvt j2 r2 e2 v2 hlt h2
  by_cases hm : 1 ≤ m
  · rcases hb : env.reqBodyRetry m with e0 | b0
    · rw [iteration_eq1 c req env m e0 hm hb] at hmem
      simp at hmem
    · rw [iteration_eq2 c req env m b0 hm hb] at hmem ⊢
      rcases List.mem_cons.mp hmem with h1 | h2
      · cases h1
      · rcases List.mem_cons.mp h2 with h3 | h4
        · cases h3
        · have hres := lift2 [Event.attemptStart m, Event.reqBodyRetry m]
            (by intro ev hm3; simp at hm3; tauto)
            (by exact List.mem_append.mpr (Or.inr h4))
          rcases hres with ⟨hnm, hget, hresp, hearlier, hsc⟩
          refine ⟨hnm, hget, hresp, ?_, ?_⟩
          · intro j' hj'
            have := hearlier j' hj'
            rcases List.mem_append.mp this with h5 | h6
            · simp at h5
            · exact List.mem_cons.mpr (Or.inr (List.mem_cons.mpr (Or.inr h6)))
          · intro hvt j2 r2 e2 v2 hlt hmem2
            apply hsc hvt j2 r2 e2 v2 hlt
            rcases List.mem_cons.mp hmem2 with h5 | h6
            · cases h5
            · rcases List.mem_cons.mp h6 with h7 | h8
              · cases h7
              · exact List.mem_append.mpr (Or.inr h8)
  · have hm0 : m = 0 := by omega
    subst hm0
    rw [iteration_eq3 c req env hm] at hmem ⊢
    rcases List.mem_cons.mp hmem with h1 | h2
    · cases h1
    · have hres := lift2 [Event.attemptStart 0]
        (by intro ev hm3; simp at hm3; exact Or.inl hm3)
        (by exact List.mem_append.mpr (Or.inr h2))
      rcases hres with ⟨hnm, hget, hresp, hearlier, hsc⟩
      refine ⟨hnm, hget, hresp, ?_, ?_⟩
      · intro j' hj'
        have := hearlier j' hj'
        rcases List.mem_append.mp this with h5 | h6
        · simp at h5
        · exact List.mem_cons.mpr (Or.inr h6)
      · intro hvt j2 r2 e2 v2 hlt hmem2
        apply hsc hvt j2 r2 e2 v2 hlt
        rcases List.mem_cons.mp hmem2 with h5 | h6
        · cases h5
        · exact List.mem_append.mpr (Or.inr h6)

lemma breakerExec_ctx_iteration (c : Cast) (req : Request) (env : Env) (m n : Nat) (c2 : GoContext) :
    Event.breakerExec n c2 ∈ (iteration c req env m).1 → c2 = GoContext.todo := by
  intro h
  rcases iteration_mem c req env m _ h with h1 | h2 | h3
  · cases h1
  · cases h2
  · rcases iterationCore_mem c req env m _ _ h3 with ⟨hb, _⟩ | ⟨ht, _⟩ | ⟨f, eA, resp, _, _, har⟩
    · simp only [Event.breakerExec.injEq] at hb
      exact hb.2
    · cases ht
    · rcases afterResponse_mem c env m f eA resp _ har with ⟨b, hb⟩ | ⟨j, v, hj⟩ | ⟨d, hd⟩
      · cases hb
      · cases hj
      · cases hd

/-- C9: the claim that the breaker-guarded execution of the transport call
respects the caller-supplied cancellation context is violated by the code:
`cb.Execute` is always invoked with `context.TODO()` (cast.go line 184),
even though the raw request was constructed with the caller's context
(cast.go line 126).  Every `breakerExec` event in a `Do` trace carries
`GoContext.todo`, which differs from any caller-supplied context, while
every `newRawRequest` event carries exactly the caller's context. -/
theorem breaker_exec_only_todo_ctx (c : Cast) (ctx : GoContext) (req : Request) (env : Env)
    (n : Nat) (c2 : GoContext)
    (hmem : Event.breakerExec n c2 ∈ (Cast.Do c ctx req env).1) :
    c2 = GoContext.todo ∧
    (∀ k, ctx = GoContext.caller k → c2 ≠ ctx) ∧
    (∀ c3, Event.newRawRequest c3 ∈ (Cast.Do c ctx req env).1 → c3 = ctx) := by
  have hidx : evIdx (Event.breakerExec n c2) = some n := rfl
  rcases Do_loop_decomp c ctx req env _ n hidx hmem with ⟨hg, _, _, _⟩
  rw [genReply_fst] at hg
  rcases mem_genReplyLoop c req env (c.retry + 1) 0 none none _ hg with ⟨m, _, hit, _⟩
  have hc2 := breakerExec_ctx_iteration c req env m n c2 hit
  refine ⟨hc2, ?_, ?_⟩
  · intro k hk heq
    subst hk
    subst hc2
    cases heq
  · intro c3 h3
    rcases Do_mem_aux c ctx req env _ h3 with ⟨j, hj⟩ | hj | ⟨j, hj⟩ | hj | ⟨⟨j, hj⟩, _⟩
    · cases hj
    · simp only [Event.newRawRequest.injEq] at hj
      exact hj
    · cases hj
    · rcases evIdx_genReply c req env _ hj with ⟨m2, hm2⟩
      cases hm2
    · cases hj

/-- C10: on every attempt, the retry hooks are invoked with a non-nil
Response (the loop allocates one before polling the hooks) that carries a
back-reference to the originating Request; when the transport call failed
and no raw response exists, that Response has no raw response, the unset
(empty) body and status code zero — the Go zero values. -/
theorem retry_hooks_nonnil_response (c : Cast) (ctx : GoContext) (req : Request) (env : Env)
    (n j : Nat) (r' : Option Response) (e' : Option Err) (v : Bool)
    (hmem : Event.retryHook n j r' e' v ∈ (Cast.Do c ctx req env).1) :
    ∃ resp, r' = some resp ∧ resp.request = req ∧
      (resp.rawResponse = none → resp.body = [] ∧ resp.statusCode = 0) := by
  have hidx : evIdx (Event.retryHook n j r' e' v) = some n := rfl
  rcases Do_loop_decomp c ctx req env _ n hidx hmem with ⟨hg, _, _, _⟩
  rw [genReply_fst] at hg
  rcases mem_genReplyLoop c req env (c.retry + 1) 0 none none _ hg with ⟨m, _, hit, _⟩
  rcases iteration_retryHook_inv c req env m n j r' e' v hit with ⟨_, _, hresp, _, _⟩
  exact hresp

/-- C3: on every attempt `n` of a `Do` call, retry hooks are evaluated in
registration order against the pair `(Response, transport error)`: every
recorded vote is the genuine evaluation of the hook registered at that
position on that attempt's pair, every hook before an evaluated one was
evaluated (to false) on the same pair, and the first hook voting retry
short-circuits the rest (no later hook of that attempt is evaluated).
Moreover the loop continues past attempt `n` only when some hook voted
retry on attempt `n`, the budget allows another attempt
(`n + 1 ≤ retry`), and a backoff strategy is configured — so if no hook
votes retry, or the budget is exhausted, or no strategy is set, the loop
terminates after that attempt. -/
theorem retry_hooks_order_and_termination (c : Cast) (ctx : GoContext) (req : Request) (env : Env) :
    (∀ (n j : Nat) (r' : Option Response) (e' : Option Err) (v : Bool),
       Event.retryHook n j r' e' v ∈ (Cast.Do c ctx req env).1 →
       (∃ hk, c.retryHooks.get? j = some hk ∧ v = hk r' e') ∧
       (∀ j', j' < j → Event.retryHook n j' r' e' false ∈ (Cast.Do c ctx req env).1) ∧
       (v = true → ∀ (j2 : Nat) (r2 : Option Response) (e2 : Option Err) (v2 : Bool), j < j2 →
         Event.retryHook n j2 r2 e2 v2 ∉ (Cast.Do c ctx req env).1)) ∧
    (∀ n, Event.attemptStart (n + 1) ∈ (Cast.Do c ctx req env).1 →
       (∃ j r' e', Event.retryHook n j r' e' true ∈ (Cast.Do c ctx req env).1) ∧
       n + 1 ≤ c.retry ∧ c.stg.isSome = true) := by
  constructor
  · intro n j r' e' v hmem
    have hidx : evIdx (Event.retryHook n j r' e' v) = some n := rfl
    rcases Do_loop_decomp c ctx req env _ n hidx hmem with ⟨hg, hsub, _, _⟩
    rw [genReply_fst] at hg
    rcases mem_genReplyLoop c req env (c.retry + 1) 0 none none _ hg with ⟨m, _, hit, hincl⟩
    rcases iteration_retryHook_inv c req env m n j r' e' v hit with ⟨hnm, hget, _, hearlier, hsc⟩
    subst hnm
    refine ⟨hget, ?_, ?_⟩
    · intro j' hj'
      apply hsub
      rw [genReply_fst]
      exact hincl _ (hearlier j' hj')
    · intro hvt j2 r2 e2 v2 hlt hmem2
      have hidx2 : evIdx (Event.retryHook n j2 r2 e2 v2) = some n := rfl
      rcases Do_loop_decomp c ctx req env _ n hidx2 hmem2 with ⟨hg2, _, _, _⟩
      rw [genReply_fst] at hg2
      rcases mem_genReplyLoop c req env (c.retry + 1) 0 none none _ hg2 with ⟨m2, _, hit2, _⟩
      have hm2 : m2 = n := by
        have := evIdx_iteration c req env m2 _ hit2
        simpa [evIdx] using this.symm
      subst hm2
      exact hsc hvt j2 r2 e2 v2 hlt hit2
  · intro n hmem
    have hidx : evIdx (Event.attemptStart (n + 1)) = some (n + 1) := rfl
    rcases Do_loop_decomp c ctx req env _ (n + 1) hidx hmem with ⟨hg, hsub, _, _⟩
    rw [genReply_fst] at hg
    rcases attemptStart_chain c req env (c.retry + 1) 0 none none (n + 1) hg n (Nat.zero_le n)
      (Nat.lt_succ_self n) with ⟨⟨tj, ej, rj, hagain⟩, hincl⟩
    rcases iteration_again_inv c req env n tj ej rj hagain with
      ⟨stgf, hstg, hle, ⟨j, r', e', hj⟩, _⟩
    refine ⟨⟨j, r', e', ?_⟩, hle, by rw [hstg]; rfl⟩
    apply hsub
    rw [genReply_fst]
    apply hincl
    rw [hagain]
    exact hj

/-- C2 (amended): the hard stop of cast.go line 222 fires only when the
breaker-guarded transport call itself failed on that attempt (`fallback`
is set inside the guarded closure) AND the breaker then reports open; in
that case no later attempt starts, regardless of remaining budget or
retry-hook votes. -/
theorem breaker_open_after_failed_guard_stops (c : Cast) (ctx : GoContext) (req : Request) (env : Env)
    (n : Nat) (e : Err)
    (hcb : c.h.GetCircuit (resolveName c req) = true)
    (hrun : (env.attempt n).runExecuted = true)
    (htr : (env.attempt n).transport = Except.error e)
    (hio : (env.attempt n).isOpen = true) :
    ∀ m, n < m → Event.attemptStart m ∉ (Cast.Do c ctx req env).1 := by
  intro m hm hmem
  have hidx : evIdx (Event.attemptStart m) = some m := rfl
  rcases Do_loop_decomp c ctx req env _ m hidx hmem with ⟨hg, _, _, _⟩
  rw [genReply_fst] at hg
  rcases attemptStart_chain c req env (c.retry + 1) 0 none none m hg n (Nat.zero_le n) hm with
    ⟨⟨tj, ej, rj, hagain⟩, _⟩
  exact iteration_open_not_again c req env n e hcb hrun htr hio tj ej rj hagain

lemma breakerExec_requires_cb (c : Cast) (req : Request) (env : Env) (m n : Nat) (c2 : GoContext) :
    Event.breakerExec n c2 ∈ (iteration c req env m).1 →
    c.h.GetCircuit (resolveName c req) = true := by
  intro h
  rcases iteration_mem c req env m _ h with h1 | h2 | h3
  · cases h1
  · cases h2
  · rcases iterationCore_mem c req env m _ _ h3 with ⟨_, hcb⟩ | ⟨ht, _⟩ | ⟨f, eA, resp, _, _, har⟩
    · exact hcb
    · cases ht
    · rcases afterResponse_mem c env m f eA resp _ har with ⟨b, hb⟩ | ⟨j, v, hj⟩ | ⟨d, hd⟩
      · cases hb
      · cases hj
      · cases hd

lemma transportCall_runExecuted (c : Cast) (req : Request) (env : Env) (m n : Nat) :
    Event.transportCall n ∈ (iteration c req env m).1 →
    c.h.GetCircuit (resolveName c req) = true → (env.attempt m).runExecuted = true := by
  intro h hcb
  rcases iteration_mem c req env m _ h with h1 | h2 | h3
  · cases h1
  · cases h2
  · rcases iterationCore_mem c req env m _ _ h3 with ⟨hb, _⟩ | ⟨_, himp⟩ | ⟨f, eA, resp, _, _, har⟩
    · cases hb
    · exact himp hcb
    · rcases afterResponse_mem c env m f eA resp _ har with ⟨b, hb⟩ | ⟨j, v, hj⟩ | ⟨d, hd⟩
      · cases hb
      · cases hj
      · cases hd

lemma iterationCore_events_present (c : Cast) (req : Request) (env : Env) (n : Nat) :
    (Event.transportCall n ∈ (iterationCore c req env n false).1) ∧
    (Event.breakerExec n GoContext.todo ∈ (iterationCore c req env n true).1) ∧
    ((env.attempt n).runExecuted = true → Event.transportCall n ∈ (iterationCore c req env n true).1) := by
  refine ⟨?_, ?_, ?_⟩
  · rcases htr : (env.attempt n).transport with e0 | r0
    · rw [iterationCore_eq9 c req env n e0 htr]
      simp
    · rcases hre : r0.readResult with e1 | b1
      · rw [iterationCore_eq6 c req env n r0 e1 htr hre]
        simp
      · rcases hcl : r0.closeResult with _ | e2
        · rw [iterationCore_eq8 c req env n r0 b1 htr hre hcl]
          simp
        · rw [iterationCore_eq7 c req env n r0 b1 e2 htr hre hcl]
          simp
  · rcases hrun : (env.attempt n).runExecuted with _ | _
    · rw [iterationCore_eq5 c req env n hrun]
      simp
    · rcases htr : (env.attempt n).transport with e0 | r0
      · rw [iterationCore_eq4 c req env n e0 htr hrun]
        simp
      · rcases hre : r0.readResult with e1 | b1
        · rw [iterationCore_eq1 c req env n r0 e1 htr hrun hre]
          simp
        · rcases hcl : r0.closeResult with _ | e2
          · rw [iterationCore_eq3 c req env n r0 b1 htr hrun hre hcl]
            simp
          · rw [iterationCore_eq2 c req env n r0 b1 e2 htr hrun hre hcl]
            simp
  · intro hrun
    rcases htr : (env.attempt n).transport with e0 | r0
    · rw [iterationCore_eq4 c req env n e0 htr hrun]
      simp
    · rcases hre : r0.readResult with e1 | b1
      · rw [iterationCore_eq1 c req env n r0 e1 htr hrun hre]
        simp
      · rcases hcl : r0.closeResult with _ | e2
        · rw [iterationCore_eq3 c req env n r0 b1 htr hrun hre hcl]
          simp
        · rw [iterationCore_eq2 c req env n r0 b1 e2 htr hrun hre hcl]
          simp

lemma iteration_contains_core (c : Cast) (req : Request) (env : Env) (n : Nat)
    (hbody : 1 ≤ n → ∃ b, env.reqBodyRetry n = Except.ok b) :
    ∀ ev, ev ∈ (iterationCore c req env n (c.h.GetCircuit (resolveName c req))).1 →
      ev ∈ (iteration c req env n).1 := by
  intro ev h
  by_cases hm : 1 ≤ n
  · rcases hbody hm with ⟨b, hb⟩
    rw [iteration_eq2 c req env n b hm hb]
    exact List.mem_cons.mpr (Or.inr (List.mem_cons.mpr (Or.inr h)))
  · have hm0 : n = 0 := by omega
    subst hm0
    rw [iteration_eq3 c req env hm]
    exact List.mem_cons.mpr (Or.inr h)

/-- C5: on every attempt that starts (and whose body re-read succeeds, for
retries), the circuit breaker is resolved from the request-level
`circuitName` when non-empty and otherwise from the client's default
circuit name; if no breaker is registered under the resolved name the
transport call is invoked directly and no breaker-guarded execution ever
occurs in the call, while if one is registered the attempt goes through
`cb.Execute` and the transport is called exactly when the breaker runs the
guarded closure. -/
theorem circuit_resolution_and_unguarded_call (c : Cast) (ctx : GoContext) (req : Request) (env : Env) (n : Nat)
    (hmem : Event.attemptStart n ∈ (Cast.Do c ctx req env).1)
    (hbody : 1 ≤ n → ∃ b, env.reqBodyRetry n = Except.ok b) :
    (resolveName c req = (if req.circuitName.length > 0 then req.circuitName else c.defaultCircuitName)) ∧
    (c.h.GetCircuit (resolveName c req) = false →
       Event.transportCall n ∈ (Cast.Do c ctx req env).1 ∧
       (∀ (m : Nat) (c2 : GoContext), Event.breakerExec m c2 ∉ (Cast.Do c ctx req env).1)) ∧
    (c.h.GetCircuit (resolveName c req) = true →
       Event.breakerExec n GoContext.todo ∈ (Cast.Do c ctx req env).1 ∧
       (Event.transportCall n ∈ (Cast.Do c ctx req env).1 ↔ (env.attempt n).runExecuted = true)) := by
  have hidx : evIdx (Event.attemptStart n) = some n := rfl
  rcases Do_loop_decomp c ctx req env _ n hidx hmem with ⟨hg, hsub, _, _⟩
  rw [genReply_fst] at hg
  rcases mem_genReplyLoop c req env (c.retry + 1) 0 none none _ hg with ⟨m, _, hit, hincl⟩
  have hmn : m = n := by
    have := evIdx_iteration c req env m _ hit
    simpa [evIdx] using this.symm
  subst hmn
  have hlift : ∀ ev, ev ∈ (iteration c req env m).1 → ev ∈ (Cast.Do c ctx req env).1 := by
    intro ev h2
    apply hsub
    rw [genReply_fst]
    exact hincl ev h2
  refine ⟨rfl, ?_, ?_⟩
  · intro hcb
    constructor
    · apply hlift
      apply iteration_contains_core c req env m hbody
      rw [hcb]
      exact (iterationCore_events_present c req env m).1
    · intro m2 c2 hmem2
      have hidx2 : evIdx (Event.breakerExec m2 c2) = some m2 := rfl
      rcases Do_loop_decomp c ctx req env _ m2 hidx2 hmem2 with ⟨hg2, _, _, _⟩
      rw [genReply_fst] at hg2
      rcases mem_genReplyLoop c req env (c.retry + 1) 0 none none _ hg2 with ⟨m3, _, hit3, _⟩
      have := breakerExec_requires_cb c req env m3 m2 c2 hit3
      rw [hcb] at this
      cases this
  · intro hcb
    constructor
    · apply hlift
      apply iteration_contains_core c req env m hbody
      rw [hcb]
      exact (iterationCore_events_present c req env m).2.1
    · constructor
      · intro hmem2
        have hidx2 : evIdx (Event.transportCall m) = some m := rfl
        rcases Do_loop_decomp c ctx req env _ m hidx2 hmem2 with ⟨hg2, _, _, _⟩
        rw [genReply_fst] at hg2
        rcases mem_genReplyLoop c req env (c.retry + 1) 0 none none _ hg2 with ⟨m3, _, hit3, _⟩
        have hm3 : m3 = m := by
          have := evIdx_iteration c req env m3 _ hit3
          simpa [evIdx] using this.symm
        subst hm3
        exact transportCall_runExecuted c req env m3 m3 hit3 hcb
      · intro hrun
        apply hlift
        apply iteration_contains_core c req env m hbody
        rw [hcb]
        exact (iterationCore_events_present c req env m).2.2 hrun

lemma iteration_out_core (c : Cast) (req : Request) (env : Env) (n : Nat)
    (hmemTC : Event.transportCall n ∈ (iteration c req env n).1) :
    (iteration c req env n).2 = (iterationCore c req env n (c.h.GetCircuit (resolveName c req))).2 := by
  by_cases hm : 1 ≤ n
  · rcases hb : env.reqBodyRetry n with e0 | b0
    · rw [iteration_eq1 c req env n e0 hm hb] at hmemTC
      simp at hmemTC
    · rw [iteration_eq2 c req env n b0 hm hb]
  · have hm0 : n = 0 := by omega
    subst hm0
    rw [iteration_eq3 c req env hm]

lemma iterationCore_read_abort (c : Cast) (req : Request) (env : Env) (n : Nat) (cbSome : Bool)
    (r : RawResp) (e : Err)
    (htr : (env.attempt n).transport = Except.ok r) (hre : r.readResult = Except.error e)
    (hrun : cbSome = true → (env.attempt n).runExecuted = true) :
    (iterationCore c req env n cbSome).2 = IterOut.abort e := by
  cases cbSome with
  | false => rw [iterationCore_eq6 c req env n r e htr hre]
  | true => rw [iterationCore_eq1 c req env n r e htr (hrun rfl) hre]

lemma iterationCore_close_abort (c : Cast) (req : Request) (env : Env) (n : Nat) (cbSome : Bool)
    (r : RawResp) (b : List Nat) (e : Err)
    (htr : (env.attempt n).transport = Except.ok r) (hre : r.readResult = Except.ok b)
    (hcl : r.closeResult = some e)
    (hrun : cbSome = true → (env.attempt n).runExecuted = true) :
    (iterationCore c req env n cbSome).2 = IterOut.abort e := by
  cases cbSome with
  | false => rw [iterationCore_eq7 c req env n r b e htr hre hcl]
  | true => rw [iterationCore_eq2 c req env n r b e htr (hrun rfl) hre hcl]

lemma iterationCore_abort_no_retryHook (c : Cast) (req : Request) (env : Env) (n : Nat) (cbSome : Bool)
    (r : RawResp) (e : Err)
    (htr : (env.attempt n).transport = Except.ok r) (hre : r.readResult = Except.error e)
    (hrun : cbSome = true → (env.attempt n).runExecuted = true) :
    ∀ (j : Nat) (r' : Option Response) (e' : Option Err) (v : Bool),
      Event.retryHook n j r' e' v ∉ (iterationCore c req env n cbSome).1 := by
  intro j r' e' v hmem
  cases cbSome with
  | false =>
    rw [iterationCore_eq6 c req env n r e htr hre] at hmem
    simp at hmem
  | true =>
    rw [iterationCore_eq1 c req env n r e htr (hrun rfl) hre] at hmem
    simp at hmem

lemma iterationCore_success_resp (c : Cast) (req : Request) (env : Env) (n : Nat) (cbSome : Bool)
    (r : RawResp) (b : List Nat)
    (htr : (env.attempt n).transport = Except.ok r) (hre : r.readResult = Except.ok b)
    (hcl : r.closeResult = none)
    (hrun : cbSome = true → (env.attempt n).runExecuted = true) :
    ∀ (j : Nat) (r' : Option Response) (e' : Option Err) (v : Bool),
      Event.retryHook n j r' e' v ∈ (iterationCore c req env n cbSome).1 →
      r' = some { request := req, rawResponse := some r, body := b, statusCode := r.statusCode } ∧ e' = none := by
  intro j r' e' v hmem
  cases cbSome with
  | false =>
    rw [iterationCore_eq8 c req env n r b htr hre hcl] at hmem
    rcases List.mem_append.mp hmem with h1 | h2
    · simp at h1
    · rcases afterResponse_retryHooks c env n false none _ n j r' e' v h2 with ⟨_, hr, he, _⟩
      exact ⟨hr, he⟩
  | true =>
    rw [iterationCore_eq3 c req env n r b htr (hrun rfl) hre hcl] at hmem
    rcases List.mem_append.mp hmem with h1 | h2
    · simp at h1
    · rcases afterResponse_retryHooks c env n false none _ n j r' e' v h2 with ⟨_, hr, he, _⟩
      exact ⟨hr, he⟩

lemma Do_responseHook_ok (c : Cast) (ctx : GoContext) (req : Request) (env : Env) (i : Nat) :
    Event.responseHook i ∈ (Cast.Do c ctx req env).1 →
    ∃ rep tr3, Cast.genReply c req env = (tr3, Except.ok rep) := by
  intro h
  rcases Do_mem_aux c ctx req env _ h with ⟨j, hj⟩ | hj | ⟨j, hj⟩ | hj | ⟨_, hok⟩
  · cases hj
  · cases hj
  · cases hj
  · rcases evIdx_genReply c req env _ hj with ⟨m2, hm2⟩
    cases hm2
  · exact hok

/-- C6: whenever a transport attempt actually yields a raw response
(`transportCall` happened and the transport returned `ok`), its body is
fully buffered and the stream closed; a failure of either the read or the
close aborts the whole `Do` call with exactly that error — no retry-hook
poll happens on that attempt, no later attempt starts regardless of
remaining budget, and no response hook runs.  When read and close succeed,
the retry hooks of that attempt see precisely the buffered Response. -/
theorem response_read_close_errors_fatal (c : Cast) (ctx : GoContext) (req : Request) (env : Env)
    (n : Nat) (r : RawResp)
    (hmem : Event.transportCall n ∈ (Cast.Do c ctx req env).1)
    (htr : (env.attempt n).transport = Except.ok r) :
    (∀ e, r.readResult = Except.error e →
       (Cast.Do c ctx req env).2 = Except.error e ∧
       (∀ m, n < m → Event.attemptStart m ∉ (Cast.Do c ctx req env).1) ∧
       (∀ i, Event.responseHook i ∉ (Cast.Do c ctx req env).1) ∧
       (∀ (j : Nat) (r' : Option Response) (e' : Option Err) (v : Bool),
         Event.retryHook n j r' e' v ∉ (Cast.Do c ctx req env).1)) ∧
    (∀ b e, r.readResult = Except.ok b → r.closeResult = some e →
       (Cast.Do c ctx req env).2 = Except.error e ∧
       (∀ m, n < m → Event.attemptStart m ∉ (Cast.Do c ctx req env).1) ∧
       (∀ i, Event.responseHook i ∉ (Cast.Do c ctx req env).1)) ∧
    (∀ b, r.readResult = Except.ok b → r.closeResult = none →
       ∀ (j : Nat) (r' : Option Response) (e' : Option Err) (v : Bool),
         Event.retryHook n j r' e' v ∈ (Cast.Do c ctx req env).1 →
         r' = some { request := req, rawResponse := some r, body := b, statusCode := r.statusCode } ∧ e' = none) := by
  have hidx : evIdx (Event.transportCall n) = some n := rfl
  rcases Do_loop_decomp c ctx req env _ n hidx hmem with ⟨hg, hsub, herr, _⟩
  rw [genReply_fst] at hg
  rcases mem_genReplyLoop c req env (c.retry + 1) 0 none none _ hg with ⟨m, _, hit, hincl⟩
  have hmn : m = n := by
    have := evIdx_iteration c req env m _ hit
    simpa [evIdx] using this.symm
  subst hmn
  have hrun : c.h.GetCircuit (resolveName c req) = true → (env.attempt m).runExecuted = true :=
    transportCall_runExecuted c req env m m hit
  have hout := iteration_out_core c req env m hit
  have habort_common : ∀ e2, (iteration c req env m).2 = IterOut.abort e2 →
      (Cast.Do c ctx req env).2 = Except.error e2 ∧
      (∀ m2, m < m2 → Event.attemptStart m2 ∉ (Cast.Do c ctx req env).1) ∧
      (∀ i, Event.responseHook i ∉ (Cast.Do c ctx req env).1) := by
    intro e2 hab
    have hloop : (genReplyLoop c req env (c.retry + 1) 0 none none).2 = Except.error e2 :=
      loop_abort_result c req env (c.retry + 1) 0 none none _ m e2 hidx hg hab
    have hgr : (Cast.genReply c req env).2 = Except.error e2 := genReply_err_of_loop c req env e2 hloop
    refine ⟨herr e2 hgr, ?_, ?_⟩
    · intro m2 hm2 hmem2
      have hidx2 : evIdx (Event.attemptStart m2) = some m2 := rfl
      rcases Do_loop_decomp c ctx req env _ m2 hidx2 hmem2 with ⟨hg2, _, _, _⟩
      rw [genReply_fst] at hg2
      rcases attemptStart_chain c req env (c.retry + 1) 0 none none m2 hg2 m (Nat.zero_le m) hm2 with
        ⟨⟨tj, ej, rj, hagain⟩, _⟩
      rw [hagain] at hab
      simp at hab
    · intro i hmem2
      rcases Do_responseHook_ok c ctx req env i hmem2 with ⟨rep, tr3, hok⟩
      rw [hok] at hgr
      simp at hgr
  refine ⟨?_, ?_, ?_⟩
  · intro e hre
    have hab : (iteration c req env m).2 = IterOut.abort e := by
      rw [hout]
      exact iterationCore_read_abort c req env m _ r e htr hre hrun
    rcases habort_common e hab with ⟨h1, h2, h3⟩
    refine ⟨h1, h2, h3, ?_⟩
    intro j r' e' v hmem2
    have hidx2 : evIdx (Event.retryHook m j r' e' v) = some m := rfl
    rcases Do_loop_decomp c ctx req env _ m hidx2 hmem2 with ⟨hg2, _, _, _⟩
    rw [genReply_fst] at hg2
    rcases mem_genReplyLoop c req env (c.retry + 1) 0 none none _ hg2 with ⟨m3, _, hit3, _⟩
    have hm3 : m3 = m := by
      have := evIdx_iteration c req env m3 _ hit3
      simpa [evIdx] using this.symm
    subst hm3
    rcases iteration_mem c req env m3 _ hit3 with h4 | h4 | h4
    · cases h4
    · cases h4
    · exact iterationCore_abort_no_retryHook c req env m3 _ r e htr hre hrun j r' e' v h4
  · intro b e hre hcl
    have hab : (iteration c req env m).2 = IterOut.abort e := by
      rw [hout]
      exact iterationCore_close_abort c req env m _ r b e htr hre hcl hrun
    exact habort_common e hab
  · intro b hre hcl j r' e' v hmem2
    have hidx2 : evIdx (Event.retryHook m j r' e' v) = some m := rfl
    rcases Do_loop_decomp c ctx req env _ m hidx2 hmem2 with ⟨hg2, _, _, _⟩
    rw [genReply_fst] at hg2
    rcases mem_genReplyLoop c req env (c.retry + 1) 0 none none _ hg2 with ⟨m3, _, hit3, _⟩
    have hm3 : m3 = m := by
      have := evIdx_iteration c req env m3 _ hit3
      simpa [evIdx] using this.symm
    subst hm3
    rcases iteration_mem c req env m3 _ hit3 with h4 | h4 | h4
    · cases h4
    · cases h4
    · exact iterationCore_success_resp c req env m3 _ r b htr hre hcl hrun j r' e' v h4

/-- C8: whenever the engine decides to retry, the call blocks for the
duration returned by the backoff strategy applied to the 1-based count of
attempts completed so far: a `sleep` event recorded at the end of
iteration `n` (zero-based) carries exactly `backoff (n + 1)` — the counter
having already been incremented past the attempt just finished — the trace
shows `n + 1` attempts started before the sleep, and the next attempt
begins immediately after it. -/
theorem backoff_blocks_before_next_attempt (c : Cast) (ctx : GoContext) (req : Request) (env : Env)
    (n d : Nat)
    (hmem : Event.sleep n d ∈ (Cast.Do c ctx req env).1) :
    ∃ stgf, c.stg = some stgf ∧ d = stgf (n + 1) ∧ n + 1 ≤ c.retry ∧
    ∃ pre post, (Cast.Do c ctx req env).1 = pre ++ Event.sleep n d :: Event.attemptStart (n + 1) :: post ∧
      countAS pre = n + 1 := by
  have hidx : evIdx (Event.sleep n d) = some n := rfl
  rcases Do_loop_decomp c ctx req env _ n hidx hmem with ⟨hg, _, _, A, B, hAB, hAcnt, _, _⟩
  rw [genReply_fst] at hg
  rcases sleep_genReplyLoop c req env (c.retry + 1) 0 none none n d (by omega) hg with
    ⟨stgf, pre, post, hstg, hd, _, hle, hsplit, hcnt⟩
  refine ⟨stgf, hstg, hd, hle, A ++ pre, post ++ B, ?_, ?_⟩
  · rw [hAB, genReply_fst, hsplit]
    simp
  · rw [countAS_append, hAcnt, hcnt]
    omega

/-- C4: for each of the before-request, request and response hook chains,
hooks run in registration order and the first hook that returns an error
terminates the `Do` call with exactly that error: the final trace contains
precisely the hooks up to and including the failing one (so no later hook
of that chain ran and no later pipeline stage ran), and for the
before-request and request chains in particular the trace contains no
transport attempt. -/
theorem hook_chain_first_error_aborts (c : Cast) (ctx : GoContext) (req : Request) (env : Env) :
    ((∃ b, env.reqBodyInit = Except.ok b) →
      (∀ k e, firstErr c.beforeRequestHooks = some (k, e) →
        Cast.Do c ctx req env = ((List.range' 0 (k + 1)).map Event.beforeHook, Except.error e)) ∧
      (firstErr c.beforeRequestHooks = none → env.buildRequest = none →
        (∀ k e, firstErr c.requestHooks = some (k, e) →
          Cast.Do c ctx req env =
            ((List.range' 0 c.beforeRequestHooks.length).map Event.beforeHook ++
              Event.newRawRequest ctx :: (List.range' 0 (k + 1)).map Event.requestHook,
             Except.error e)) ∧
        (firstErr c.requestHooks = none →
          ∀ rep tr3 k e, Cast.genReply c req env = (tr3, Except.ok rep) →
          firstErr c.responseHooks = some (k, e) →
          Cast.Do c ctx req env =
            ((List.range' 0 c.beforeRequestHooks.length).map Event.beforeHook ++
              Event.newRawRequest ctx :: (List.range' 0 c.requestHooks.length).map Event.requestHook ++
              tr3 ++ (List.range' 0 (k + 1)).map Event.responseHook,
             Except.error e)))) := by
  intro hbi0
  rcases hbi0 with ⟨b0, hbi⟩
  refine ⟨?_, ?_⟩
  · intro k e hfe
    have hch := runHookChainAux_firstErr_some Event.beforeHook c.beforeRequestHooks 0 k e hfe
    simp only [Cast.Do, hbi, hch]
  · intro hfeb hbr
    have hchb := runHookChainAux_firstErr_none Event.beforeHook c.beforeRequestHooks 0 hfeb
    refine ⟨?_, ?_⟩
    · intro k e hfe
      have hch := runHookChainAux_firstErr_some Event.requestHook c.requestHooks 0 k e hfe
      simp only [Cast.Do, hbi, hchb, hbr, hch]
    · intro hfer rep tr3 k e hgr hfe
      have hchr := runHookChainAux_firstErr_none Event.requestHook c.requestHooks 0 hfer
      have hchresp := runHookChainAux_firstErr_some Event.responseHook c.responseHooks 0 k e hfe
      simp only [Cast.Do, hbi, hchb, hbr, hchr, hgr, hchresp]

/-! ### Concrete fixtures -/

/-- Request fixture with an unset circuit name (falls back to the client
default). -/
def wreq : Request := { method := "GET", path := "/p", circuitName := "" }

/-- Client fixture with one registered breaker under every name, one
retry-on-any-error hook, retry budget 1 and a zero backoff. -/
def cexCast : Cast :=
  { baseURL := "b", retry := 1, stg := some (fun _ => 0)
  , beforeRequestHooks := [], requestHooks := [], responseHooks := []
  , retryHooks := [fun _ e => e.isSome]
  , h := { GetCircuit := fun _ => true }, defaultCircuitName := "d" }

/-- Environment fixture where the breaker is open on every attempt: its
`Execute` short-circuits (the guarded closure never runs) with a
circuit-open error, and `IsOpen()` reports true. -/
def cexEnv : Env :=
  { reqBodyInit := Except.ok [], reqBodyRetry := fun _ => Except.ok []
  , buildRequest := none
  , attempt := fun k =>
      { transport := Except.error (Err.transportErr k), runExecuted := false
      , shortCircuitErr := Err.circuitOpen k, isOpen := true } }

/-- C2 counterexample: with a resolved breaker that is open after attempt
0 — its `Execute` short-circuits with a circuit-open error and `IsOpen()`
reports true — a retry hook voting retry still drives a second attempt,
because the hard stop at cast.go line 222 requires `fallback`, which is
set only inside the guarded closure.  Attempt 1 starts even though the
breaker reported open after attempt 0, refuting the claim as stated. -/
theorem breaker_open_hard_stop_cex :
    cexCast.h.GetCircuit (resolveName cexCast wreq) = true ∧
    (cexEnv.attempt 0).isOpen = true ∧
    Event.breakerExec 0 GoContext.todo ∈ (Cast.Do cexCast (GoContext.caller 0) wreq cexEnv).1 ∧
    Event.attemptStart 1 ∈ (Cast.Do cexCast (GoContext.caller 0) wreq cexEnv).1 := by
  decide

/-- Environment fixture where the guarded transport call itself fails on
every attempt (so `fallback` is set) and the breaker reports open. -/
def wEnvOpen : Env :=
  { cexEnv with attempt := fun k =>
      { transport := Except.error (Err.transportErr k), runExecuted := true
      , shortCircuitErr := Err.circuitOpen k, isOpen := true } }

/-- Witness for the amended C2 theorem at a concrete input. -/
theorem breaker_open_after_failed_guard_stops_witness :
    Event.attemptStart 1 ∉ (Cast.Do cexCast (GoContext.caller 0) wreq wEnvOpen).1 :=
  breaker_open_after_failed_guard_stops cexCast (GoContext.caller 0) wreq wEnvOpen 0
    (Err.transportErr 0) (by decide) (by decide) (by decide) (by decide) 1 (by decide)

/-- Client fixture with no registered breaker, two retry hooks (the first
always votes no, the second votes retry on HTTP 500) and retry budget 2. -/
def hookNever : RetryHook := fun _ _ => false

/-- Retry hook voting retry exactly on HTTP status 500. -/
def hook500 : RetryHook := fun r _ =>
  match r with
  | some resp => resp.statusCode == 500
  | none => false

def wCast3 : Cast :=
  { cexCast with
      retry := 2,
      retryHooks := [hookNever, hook500],
      h := { GetCircuit := fun _ => false } }

/-- Environment fixture where the transport returns 500 on attempt 0 and
200 afterwards, with bodies that read and close cleanly. -/
def wEnv3 : Env :=
  { cexEnv with attempt := fun k =>
      { transport := Except.ok
          { statusCode := if k = 0 then 500 else 200, readResult := Except.ok [], closeResult := none }
      , runExecuted := true, shortCircuitErr := Err.circuitOpen k, isOpen := false } }

/-- Witness for C3 at a concrete input: attempt 1 started, so some hook
voted retry on attempt 0 within budget and with a strategy configured. -/
theorem retry_hooks_order_and_termination_witness :
    (∃ j r' e', Event.retryHook 0 j r' e' true ∈ (Cast.Do wCast3 (GoContext.caller 0) wreq wEnv3).1) ∧
    0 + 1 ≤ wCast3.retry ∧ wCast3.stg.isSome = true :=
  (retry_hooks_order_and_termination wCast3 (GoContext.caller 0) wreq wEnv3).2 0 (by decide)

/-- Client fixture whose second before-request hook fails. -/
def wCast4 : Cast := { cexCast with beforeRequestHooks := [none, some (Err.hookFail 7)] }

/-- Witness for C4 at a concrete input: the call aborts with the second
before-request hook's error after running exactly hooks 0 and 1. -/
theorem hook_chain_first_error_aborts_witness :
    Cast.Do wCast4 (GoContext.caller 0) wreq cexEnv =
      ((List.range' 0 2).map Event.beforeHook, Except.error (Err.hookFail 7)) :=
  (hook_chain_first_error_aborts wCast4 (GoContext.caller 0) wreq cexEnv ⟨[], by decide⟩).1 1
    (Err.hookFail 7) (by decide)

/-- Witness for C5 at a concrete input: with no breaker registered, the
transport is called directly and no breaker-guarded execution occurs. -/
theorem circuit_resolution_and_unguarded_call_witness :
    Event.transportCall 0 ∈ (Cast.Do wCast3 (GoContext.caller 0) wreq wEnv3).1 ∧
    (∀ (m : Nat) (c2 : GoContext),
      Event.breakerExec m c2 ∉ (Cast.Do wCast3 (GoContext.caller 0) wreq wEnv3).1) :=
  (circuit_resolution_and_unguarded_call wCast3 (GoContext.caller 0) wreq wEnv3 0 (by decide)
    (fun _ => ⟨[], by decide⟩)).2.1 (by decide)

/-- Client fixture with no registered breaker (otherwise like `cexCast`). -/
def wCast6 : Cast := { cexCast with h := { GetCircuit := fun _ => false } }

/-- Raw response fixture whose body read fails. -/
def wraw6 : RawResp := { statusCode := 200, readResult := Except.error (Err.bodyRead 3), closeResult := none }

/-- Environment fixture where the transport succeeds but reading the body
fails. -/
def wEnv6 : Env :=
  { cexEnv with attempt := fun k =>
      { transport := Except.ok wraw6, runExecuted := true
      , shortCircuitErr := Err.circuitOpen k, isOpen := false } }

/-- Witness for C6 at a concrete input: a body-read failure aborts the
whole call with that error. -/
theorem response_read_close_errors_fatal_witness :
    (Cast.Do wCast6 (GoContext.caller 0) wreq wEnv6).2 = Except.error (Err.bodyRead 3) :=
  ((response_read_close_errors_fatal wCast6 (GoContext.caller 0) wreq wEnv6 0 wraw6
    (by decide) (by decide)).1 (Err.bodyRead 3) (by decide)).1

/-- Environment fixture where the initial body materialization fails. -/
def wEnv7 : Env := { cexEnv with reqBodyInit := Except.error (Err.reqBodyFail 5) }

/-- Witness for C7 at a concrete input. -/
theorem do_reqBody_failfast_witness :
    Cast.Do cexCast (GoContext.caller 0) wreq wEnv7 = ([], Except.error (Err.reqBodyFail 5)) :=
  do_reqBody_failfast cexCast (GoContext.caller 0) wreq wEnv7 (Err.reqBodyFail 5) (by decide)

/-- Witness for C8 at a concrete input: the recorded backoff delay is the
strategy applied to the 1-based number of attempts completed, and the
next attempt starts right after the sleep. -/
theorem backoff_blocks_before_next_attempt_witness :
    ∃ stgf, wCast3.stg = some stgf ∧ 0 = stgf (0 + 1) ∧ 0 + 1 ≤ wCast3.retry ∧
    ∃ pre post, (Cast.Do wCast3 (GoContext.caller 0) wreq wEnv3).1 =
      pre ++ Event.sleep 0 0 :: Event.attemptStart (0 + 1) :: post ∧ countAS pre = 0 + 1 :=
  backoff_blocks_before_next_attempt wCast3 (GoContext.caller 0) wreq wEnv3 0 0 (by decide)

/-- Witness for C9 at a concrete input: the breaker-guarded execution uses
`context.TODO()`, not the caller's context. -/
theorem breaker_exec_only_todo_ctx_witness :
    GoContext.todo = GoContext.todo ∧
    (∀ k, GoContext.caller 0 = GoContext.caller k → GoContext.todo ≠ GoContext.caller 0) ∧
    (∀ c3, Event.newRawRequest c3 ∈ (Cast.Do cexCast (GoContext.caller 0) wreq cexEnv).1 →
      c3 = GoContext.caller 0) :=
  breaker_exec_only_todo_ctx cexCast (GoContext.caller 0) wreq cexEnv 0 GoContext.todo (by decide)

/-- Witness for C10 at a concrete input: the retry hook of a failed
attempt received a non-nil Response with the request back-reference, no
raw response, empty body and status 0. -/
theorem retry_hooks_nonnil_response_witness :
    ∃ resp, (some { request := wreq, rawResponse := none, body := [], statusCode := 0 } : Option Response) = some resp ∧
      resp.request = wreq ∧ (resp.rawResponse = none → resp.body = [] ∧ resp.statusCode = 0) :=
  retry_hooks_nonnil_response cexCast (GoContext.caller 0) wreq cexEnv 0 0
    (some { request := wreq, rawResponse := none, body := [], statusCode := 0 })
    (some (Err.circuitOpen 0)) true (by decide)
